import Mathlib

/-!
# sigrok-cli: the streaming data-feed pipeline

A shallow embedding of `sigrok-cli.c`: the packet callback `datafeed_in`, the
probe selection `select_probes`, the decoder setup `register_pds` and
`setup_pd_stack`, and the annotation callback `show_pd_annotations`.

Conventions of the embedding.

* The `static` locals of `datafeed_in` and the globals it reads or writes are the
  fields of `State`; the options and limits fixed before acquisition, and the
  behaviour of the libraries the code calls into (libsigrok, libsigrokdecode,
  GLib, stdio) are the fields of `Env`.
* Every library call with an outside effect is recorded, in program order, as an
  `Effect`.  A `fwrite` carries the stream it targets, also when that stream is
  the NULL pointer.
* `uint64_t` arithmetic is arithmetic on `Nat` reduced modulo `2 ^ 64`.
* A call of `datafeed_in` ends in one of three ways (`Status`): it returns, it
  calls `exit(1)`, or it does something that C leaves undefined (`Fault`:
  division by zero, dereferencing the NULL probe pointer, writing past the end
  of a probe list array, freeing a pointer that was never set).
* `g_debug`/`g_message`/`g_critical` lines are not recorded; `g_warning` is.
-/

namespace SigrokCli

/-- Modulus of `uint64_t`. -/
def U64 : Nat := 2 ^ 64

/-- Tags of `struct sr_datafeed_packet` (`SR_DF_*` of libsigrok). -/
inductive PacketType where
  | SR_DF_HEADER
  | SR_DF_END
  | SR_DF_TRIGGER
  | SR_DF_META_LOGIC
  | SR_DF_LOGIC
  | SR_DF_META_ANALOG
  | SR_DF_ANALOG
  | SR_DF_FRAME_BEGIN
  | SR_DF_FRAME_END
  | SR_DF_OTHER (code : Nat)
  deriving DecidableEq, Repr

/-- One probe of a device, `struct sr_probe`. -/
structure sr_probe where
  index : Int
  name : String
  enabled : Bool
  deriving DecidableEq, Repr

/-- The part of `struct sr_dev_inst` the pipeline reads: the probe list. -/
structure sr_dev_inst where
  probes : List sr_probe
  deriving DecidableEq, Repr

/-- Payload of a `SR_DF_META_LOGIC` packet. -/
structure sr_datafeed_meta_logic where
  num_probes : Nat
  samplerate : Nat
  deriving DecidableEq, Repr

/-- Payload of a `SR_DF_LOGIC` packet: declared byte length, declared source
sample size in bytes, and the bytes. -/
structure sr_datafeed_logic where
  length : Nat
  unitsize : Nat
  data : List Nat
  deriving DecidableEq, Repr

/-- Payload of a `SR_DF_META_ANALOG` packet. -/
structure sr_datafeed_meta_analog where
  num_probes : Nat
  deriving DecidableEq, Repr

/-- Payload of a `SR_DF_ANALOG` packet; the float samples are carried as raw
words, the pipeline forwards them untouched. -/
structure sr_datafeed_analog where
  num_samples : Nat
  data : List Nat
  deriving DecidableEq, Repr

/-- A packet: the tag together with the payload that tag carries. -/
inductive sr_datafeed_packet where
  | header
  | end_
  | trigger
  | meta_logic (meta_logic : sr_datafeed_meta_logic)
  | logic (logic : sr_datafeed_logic)
  | meta_analog (meta_analog : sr_datafeed_meta_analog)
  | analog (analog : sr_datafeed_analog)
  | frame_begin
  | frame_end
  | other (code : Nat)
  deriving DecidableEq, Repr

/-- The `type` field of a packet. -/
def sr_datafeed_packet.type : sr_datafeed_packet → PacketType
  | .header => .SR_DF_HEADER
  | .end_ => .SR_DF_END
  | .trigger => .SR_DF_TRIGGER
  | .meta_logic _ => .SR_DF_META_LOGIC
  | .logic _ => .SR_DF_LOGIC
  | .meta_analog _ => .SR_DF_META_ANALOG
  | .analog _ => .SR_DF_ANALOG
  | .frame_begin => .SR_DF_FRAME_BEGIN
  | .frame_end => .SR_DF_FRAME_END
  | .other c => .SR_DF_OTHER c

/-- A `FILE *` value as `datafeed_in` holds it in `outfile`. -/
inductive FileHandle where
  | null
  | stdout
  | file (path : String)
  deriving DecidableEq, Repr

/-- An output format, `struct sr_output_format`: the declared packet type of its
data hook and its optional hooks.  `σ` is the private state a module instance
keeps behind `struct sr_output`.  A hook that hands back a buffer returns
`some bytes` (the `output_len` bytes of `output_buf`), and `none` for NULL. -/
structure sr_output_format (σ : Type) where
  df_type : PacketType
  init : Option (σ → Option σ)
  data : Option (σ → List Nat → Nat → σ × Option (List Nat))
  event : Option (σ → PacketType → σ × Option (List Nat))
  recv : Option (σ → sr_datafeed_packet → σ × Option (List Nat))
  cleanup : Option (σ → Unit)

/-- Library calls with an outside effect, as `datafeed_in` issues them. -/
inductive Effect where
  | call_init
  | call_event (type : PacketType)
  | call_data (buf : List Nat) (len : Nat)
  | call_recv (type : PacketType)
  | call_cleanup
  | fwrite (stream : FileHandle) (bytes : List Nat)
  | fflush (stream : FileHandle)
  | fclose (stream : FileHandle)
  | g_fopen (path : String)
  | sr_datastore_new (unitsize : Nat)
  | sr_datastore_put (buf : List Nat) (len : Nat) (sample_size : Nat) (probelist : List Int)
  | srd_session_start (num_probes : Nat) (unitsize : Nat) (samplerate : Nat)
  | srd_session_send (start_samplenum : Nat) (buf : List Nat) (len : Nat)
  | sr_session_stop
  | g_warning (msg : String) (samples : Nat)
  deriving DecidableEq, Repr

/-- Options, limits and library behaviour fixed for the whole session. -/
structure Env (σ : Type) where
  limit_samples : Nat
  output_format : sr_output_format σ
  /-- State of a `struct sr_output` right after `g_try_malloc`, before `init`. -/
  fresh : σ
  default_output_format : Bool
  opt_wait_trigger : Bool
  opt_output_file : Option String
  opt_pds : Option String
  opt_continuous : Bool
  /-- Library `sr_filter_probes(in_unitsize, out_unitsize, probelist, data_in,
  length_in, &data_out, &length_out)`: `none` when it does not return `SR_OK`,
  else the buffer and the length it reports. -/
  sr_filter_probes : Nat → Nat → List Int → List Nat → Nat → Option (List Nat × Nat)
  /-- Library `sr_datastore_new(unitsize, &ds)`: whether it returns `SR_OK`. -/
  sr_datastore_new : Nat → Bool
  /-- Library `g_fopen(path, "wb")`: the stream, NULL on failure. -/
  g_fopen : String → FileHandle
  /-- Library `srd_session_send(start, buf, len)`: whether it returns `SRD_OK`. -/
  srd_session_send : Nat → List Nat → Nat → Bool
  /-- Library `g_try_malloc(sizeof(struct sr_output))` of line 573: whether it
  returns memory (non-NULL). -/
  g_try_malloc : Bool
  /-- The constant `SR_MAX_NUM_PROBES` of libsigrok.h, the number of entries of
  the arrays `logic_probelist` and `analog_probelist` (line 546-547). -/
  SR_MAX_NUM_PROBES : Nat
  /-- The local `output_buf` (line 561) has no initialiser; line 708 tests it also
  when no hook has set it.  What it holds then is whatever the stack holds:
  this says whether that value is non-NULL. -/
  output_buf_stale : Bool

/-- The `static` locals of `datafeed_in` with the global `singleds`. -/
structure State (σ : Type) where
  /-- The live output module `o`; `none` is the NULL pointer. -/
  o : Option σ
  /-- Entries of `logic_probelist` up to and including the sentinel `-1`. -/
  logic_probelist : List Int
  /-- The used entries of `analog_probelist`, as positions in `sdi->probes`. -/
  analog_probelist : List Nat
  received_samples : Nat
  unitsize : Nat
  triggered : Bool
  outfile : FileHandle
  num_analog_probes : Nat
  num_enabled_analog_probes : Nat
  /-- The datastore `singleds`, known by the unit size it was created with. -/
  singleds : Option Nat

/-- The state before the first call: the initialisers of the `static`s. -/
def State.initial (σ : Type) : State σ :=
  { o := none, logic_probelist := [-1], analog_probelist := [], received_samples := 0,
    unitsize := 0, triggered := false, outfile := .null, num_analog_probes := 0,
    num_enabled_analog_probes := 0, singleds := none }

/-- Undefined operations a call can run into. -/
inductive Fault where
  | div_by_zero
  | null_probe
  | probelist_overflow
  | free_unset_output_buf
  deriving DecidableEq, Repr

/-- How a call of `datafeed_in` ended. -/
inductive Status where
  | returned
  | exited (code : Nat)
  | fault (f : Fault)
  deriving DecidableEq, Repr

/-- What a call leaves behind: the state at the point it ended, the effects it
issued up to there, and how it ended. -/
structure Result (σ : Type) where
  state : State σ
  effects : List Effect
  status : Status

/-- Writes a hook's buffer to `outfile` and flushes: the
`if (output_buf) { fwrite; fflush; g_free }` blocks of the data and frame cases. -/
def write_out (outfile : FileHandle) : Option (List Nat) → List Effect
  | none => []
  | some bytes => [.fwrite outfile bytes, .fflush outfile]

/-- Case `SR_DF_HEADER` (lines 570-586): allocate a new module, `exit(1)` when the
allocation fails (`o` is NULL then), else run `init`, `exit(1)` when that
fails. -/
def datafeed_in_header {σ : Type} (env : Env σ) (s : State σ) : Result σ :=
  if env.g_try_malloc = false then ⟨{ s with o := none }, [], .exited 1⟩
  else
    match env.output_format.init with
    | none => ⟨{ s with o := some env.fresh }, [], .returned⟩
    | some init =>
      match init env.fresh with
      | some m => ⟨{ s with o := some m }, [.call_init], .returned⟩
      | none => ⟨{ s with o := some env.fresh }, [.call_init], .exited 1⟩

/-- Case `SR_DF_END` (lines 588-616). -/
def datafeed_in_end {σ : Type} (env : Env σ) (s : State σ) : Result σ :=
  match s.o with
  | none => ⟨s, [], .returned⟩
  | some m =>
    let ev1 : List Effect :=
      match env.output_format.event with
      | none => []
      | some event =>
        .call_event .SR_DF_END ::
          (match (event m .SR_DF_END).2 with
           | none => []
           | some bytes => if s.outfile = .null then [] else [.fwrite s.outfile bytes])
    let ev2 : List Effect :=
      if env.limit_samples ≠ 0 ∧ s.received_samples < env.limit_samples then
        [.g_warning "Device only sent samples." s.received_samples]
      else []
    let ev3 : List Effect :=
      if env.opt_continuous then [.g_warning "Device stopped after samples." s.received_samples]
      else []
    let ev4 : List Effect :=
      if s.outfile ≠ .null ∧ s.outfile ≠ .stdout then [.fclose s.outfile] else []
    let ev5 : List Effect :=
      match env.output_format.cleanup with
      | none => []
      | some _ => [.call_cleanup]
    ⟨{ s with o := none }, ev1 ++ ev2 ++ ev3 ++ ev4 ++ ev5, .returned⟩

/-- Case `SR_DF_TRIGGER` (lines 618-624): the event hook runs, what it returns is
not written. -/
def datafeed_in_trigger {σ : Type} (env : Env σ) (s : State σ) (m : σ) : Result σ :=
  match env.output_format.event with
  | none => ⟨{ s with triggered := true }, [], .returned⟩
  | some event =>
    ⟨{ s with o := some (event m .SR_DF_TRIGGER).1, triggered := true },
      [.call_event .SR_DF_TRIGGER], .returned⟩

/-- The loop of lines 630-634 and 725-729 from iteration `i` on, `k` iterations
to go: `g_slist_nth_data(sdi->probes, i)`, the test of `probe->enabled`, and
the store into the probe list array of `capacity` entries at the next free
index.  Collects the positions of the enabled probes; stops with a fault when
the probe pointer is NULL, and when the store goes past the end of the
array. -/
def enabled_loop (capacity : Nat) (probes : List sr_probe) :
    Nat → Nat → List Nat → Except Fault (List Nat)
  | 0, _, acc => .ok acc
  | k + 1, i, acc =>
    match probes[i]? with
    | none => .error .null_probe
    | some probe =>
      if probe.enabled then
        if capacity ≤ acc.length then .error .probelist_overflow
        else enabled_loop capacity probes k (i + 1) (acc ++ [i])
      else enabled_loop capacity probes k (i + 1) acc

/-- The `index` field of the probe at a position of `sdi->probes`. -/
def probe_index (probes : List sr_probe) (pos : Nat) : Int :=
  match probes[pos]? with
  | some probe => probe.index
  | none => -1

/-- What lines 639-656 and 731-748 decide: the new `outfile`, the new `singleds`,
the effects, and whether `exit(1)` was reached. -/
structure Destination where
  outfile : FileHandle
  singleds : Option Nat
  effects : List Effect
  failed : Bool

/-- Lines 639-656 and 731-748: choose the destination. -/
def open_destination {σ : Type} (env : Env σ) (s : State σ) (unitsize : Nat) : Destination :=
  match env.opt_output_file with
  | none => ⟨.stdout, s.singleds, [], false⟩
  | some path =>
    if env.default_output_format then
      if env.sr_datastore_new unitsize then
        ⟨.null, some unitsize, [.sr_datastore_new unitsize], false⟩
      else ⟨.null, s.singleds, [.sr_datastore_new unitsize], true⟩
    else ⟨env.g_fopen path, s.singleds, [.g_fopen path], false⟩

/-- Case `SR_DF_META_LOGIC` (lines 626-660).  The sentinel of line 635 is one
more store into `logic_probelist`, past its end when the enabled probes fill
the array.  At a fault the state is given as it was before the call. -/
def datafeed_in_meta_logic {σ : Type} (env : Env σ) (sdi : sr_dev_inst) (s : State σ)
    (meta_logic : sr_datafeed_meta_logic) : Result σ :=
  match enabled_loop env.SR_MAX_NUM_PROBES sdi.probes meta_logic.num_probes 0 [] with
  | .error f => ⟨s, [], .fault f⟩
  | .ok enabled =>
    if env.SR_MAX_NUM_PROBES ≤ enabled.length then ⟨s, [], .fault .probelist_overflow⟩
    else
      let num_enabled_probes := enabled.length
      let unitsize := (num_enabled_probes + 7) / 8
      let s1 : State σ :=
        { s with logic_probelist := enabled.map (probe_index sdi.probes) ++ [-1],
                 unitsize := unitsize }
      let d := open_destination env s1 unitsize
      if d.failed then
        ⟨{ s1 with outfile := d.outfile, singleds := d.singleds }, d.effects, .exited 1⟩
      else
        ⟨{ s1 with outfile := d.outfile, singleds := d.singleds },
          d.effects ++ (if env.opt_pds.isSome then
                   [.srd_session_start num_enabled_probes unitsize meta_logic.samplerate]
                 else []),
          .returned⟩

/-- The truncation of lines 687-689, in `uint64_t` arithmetic: the length handed
on, given the length `filter_out_len` the transcoder reported. -/
def truncated_len (limit_samples received_samples length sample_size filter_out_len : Nat) :
    Nat :=
  if limit_samples ≠ 0 ∧
      (received_samples + length / sample_size) % U64 > (limit_samples * sample_size) % U64 then
    ((limit_samples * sample_size) % U64 + U64 - received_samples) % U64
  else filter_out_len

/-- Lines 691-707: whether the branch of the output module is reached and the
data hook is not called there: no output file in the default format, no
decoders, and no data hook declared for logic packets. -/
def data_hook_skipped {σ : Type} (env : Env σ) : Bool :=
  !(env.opt_output_file.isSome && env.default_output_format) && !env.opt_pds.isSome &&
    !(env.output_format.data.isSome && decide (env.output_format.df_type = .SR_DF_LOGIC))

/-- Lines 708-712 when the data hook was not called: `output_buf` was never set
and `output_len` is 0.  If the value found there is non-NULL, `fwrite` is
called with it for zero bytes and `fflush` follows. -/
def unset_output_buf {σ : Type} (env : Env σ) (s : State σ) : List Effect :=
  if env.output_buf_stale then [.fwrite s.outfile [], .fflush s.outfile] else []

/-- Whether line 711 frees the pointer that was never set: the data hook was
skipped and the value found in `output_buf` is non-NULL. -/
def route_logic_faults {σ : Type} (env : Env σ) : Bool :=
  data_hook_skipped env && env.output_buf_stale

/-- Lines 691-713: hand the transcoded buffer on.  Gives the module state and
the effects up to the `g_free` of line 711; whether that `g_free` is handed the
never-set pointer is `route_logic_faults`. -/
def route_logic {σ : Type} (env : Env σ) (s : State σ) (m : σ) (sample_size : Nat)
    (filter_out : List Nat) (filter_out_len : Nat) : σ × List Effect :=
  let ev1 : List Effect :=
    if s.singleds.isSome then
      [.sr_datastore_put filter_out filter_out_len sample_size s.logic_probelist]
    else []
  if env.opt_output_file.isSome && env.default_output_format then (m, ev1)
  else if env.opt_pds.isSome then
    if env.srd_session_send s.received_samples filter_out filter_out_len then
      (m, ev1 ++ [.srd_session_send s.received_samples filter_out filter_out_len])
    else
      (m, ev1 ++ [.srd_session_send s.received_samples filter_out filter_out_len,
                  .sr_session_stop])
  else
    match env.output_format.data with
    | none => (m, ev1 ++ unset_output_buf env s)
    | some data =>
      if env.output_format.df_type = .SR_DF_LOGIC then
        let r := data m filter_out filter_out_len
        (r.1, ev1 ++ .call_data filter_out filter_out_len :: write_out s.outfile r.2)
      else (m, ev1 ++ unset_output_buf env s)

/-- Case `SR_DF_LOGIC` (lines 662-718). -/
def datafeed_in_logic {σ : Type} (env : Env σ) (s : State σ) (m : σ)
    (logic : sr_datafeed_logic) : Result σ :=
  let sample_size := logic.unitsize
  if logic.length = 0 then ⟨s, [], .returned⟩
  else if env.opt_wait_trigger && !s.triggered then ⟨s, [], .returned⟩
  else if env.limit_samples ≠ 0 ∧ s.received_samples ≥ env.limit_samples then
    ⟨s, [], .returned⟩
  else
    match env.sr_filter_probes sample_size s.unitsize s.logic_probelist logic.data
        logic.length with
    | none => ⟨s, [], .returned⟩
    | some (filter_out, filter_out_len) =>
      if env.limit_samples ≠ 0 ∧ sample_size = 0 then ⟨s, [], .fault .div_by_zero⟩
      else
        let len := truncated_len env.limit_samples s.received_samples logic.length
          sample_size filter_out_len
        let r := route_logic env s m sample_size filter_out len
        if route_logic_faults env then
          ⟨{ s with o := some r.1 }, r.2, .fault .free_unset_output_buf⟩
        else if sample_size = 0 then ⟨{ s with o := some r.1 }, r.2, .fault .div_by_zero⟩
        else
          ⟨{ s with o := some r.1,
                    received_samples := (s.received_samples + logic.length / sample_size) % U64 },
            r.2, .returned⟩

/-- Case `SR_DF_META_ANALOG` (lines 720-749). -/
def datafeed_in_meta_analog {σ : Type} (env : Env σ) (sdi : sr_dev_inst) (s : State σ)
    (meta_analog : sr_datafeed_meta_analog) : Result σ :=
  match enabled_loop env.SR_MAX_NUM_PROBES sdi.probes meta_analog.num_probes 0 [] with
  | .error f => ⟨{ s with num_analog_probes := meta_analog.num_probes }, [], .fault f⟩
  | .ok enabled =>
    let s1 : State σ :=
      { s with num_analog_probes := meta_analog.num_probes,
               num_enabled_analog_probes := enabled.length,
               analog_probelist := enabled }
    let d := open_destination env s1 s1.unitsize
    if d.failed then
      ⟨{ s1 with outfile := d.outfile, singleds := d.singleds }, d.effects, .exited 1⟩
    else ⟨{ s1 with outfile := d.outfile, singleds := d.singleds }, d.effects, .returned⟩

/-- Case `SR_DF_ANALOG` (lines 751-772); `sizeof(float)` is 4. -/
def datafeed_in_analog {σ : Type} (env : Env σ) (s : State σ) (m : σ)
    (analog : sr_datafeed_analog) : Result σ :=
  if analog.num_samples = 0 then ⟨s, [], .returned⟩
  else if env.limit_samples ≠ 0 ∧ s.received_samples ≥ env.limit_samples then
    ⟨s, [], .returned⟩
  else
    let r : σ × List Effect :=
      match env.output_format.data with
      | none => (m, [])
      | some data =>
        if env.output_format.df_type = .SR_DF_ANALOG then
          let d := data m analog.data (analog.num_samples * 4)
          (d.1, .call_data analog.data (analog.num_samples * 4) :: write_out s.outfile d.2)
        else (m, [])
    ⟨{ s with o := some r.1,
              received_samples := (s.received_samples + analog.num_samples) % U64 },
      r.2, .returned⟩

/-- Cases `SR_DF_FRAME_BEGIN` and `SR_DF_FRAME_END` (lines 774-798). -/
def datafeed_in_frame {σ : Type} (env : Env σ) (s : State σ) (m : σ) (type : PacketType) :
    Result σ :=
  match env.output_format.event with
  | none => ⟨s, [], .returned⟩
  | some event =>
    let r := event m type
    ⟨{ s with o := some r.1 }, .call_event type :: write_out s.outfile r.2, .returned⟩

/-- The `switch (packet->type)` of lines 569-802, entered with the guard of line
565 passed: every case but the header and the end one runs with `o` non-NULL. -/
def datafeed_in_switch {σ : Type} (env : Env σ) (sdi : sr_dev_inst) (s : State σ)
    (m : Option σ) : sr_datafeed_packet → Result σ
  | .header => datafeed_in_header env s
  | .end_ => datafeed_in_end env s
  | .meta_logic meta_logic => datafeed_in_meta_logic env sdi s meta_logic
  | .meta_analog meta_analog => datafeed_in_meta_analog env sdi s meta_analog
  | .other _ => ⟨s, [], .returned⟩
  | .trigger => match m with
    | some m => datafeed_in_trigger env s m
    | none => ⟨s, [], .returned⟩
  | .logic logic => match m with
    | some m => datafeed_in_logic env s m logic
    | none => ⟨s, [], .returned⟩
  | .analog analog => match m with
    | some m => datafeed_in_analog env s m analog
    | none => ⟨s, [], .returned⟩
  | .frame_begin => match m with
    | some m => datafeed_in_frame env s m .SR_DF_FRAME_BEGIN
    | none => ⟨s, [], .returned⟩
  | .frame_end => match m with
    | some m => datafeed_in_frame env s m .SR_DF_FRAME_END
    | none => ⟨s, [], .returned⟩

/-- Lines 804-810: the generic per-packet hook, run after the switch. -/
def datafeed_in_recv {σ : Type} (env : Env σ) (s : State σ) (packet : sr_datafeed_packet) :
    State σ × List Effect :=
  match s.o, env.output_format.recv with
  | some m, some recv =>
    let r := recv m packet
    ({ s with o := some r.1 },
      .call_recv packet.type ::
        (match r.2 with
         | none => []
         | some out => if out.length ≠ 0 then [.fwrite s.outfile out, .fflush s.outfile] else []))
  | _, _ => (s, [])

/-- The packet callback `datafeed_in` (lines 542-812). -/
def datafeed_in {σ : Type} (env : Env σ) (sdi : sr_dev_inst) (s : State σ)
    (packet : sr_datafeed_packet) : Result σ :=
  if packet.type ≠ .SR_DF_HEADER ∧ s.o.isNone then ⟨s, [], .returned⟩
  else
    let r := datafeed_in_switch env sdi s s.o packet
    match r.status with
    | .returned =>
      let h := datafeed_in_recv env r.state packet
      ⟨h.1, r.effects ++ h.2, .returned⟩
    | st => ⟨r.state, r.effects, st⟩

/-- Delivers a packet sequence in arrival order, one call of `datafeed_in` per
packet, stopping at the first call that does not return. -/
def run {σ : Type} (env : Env σ) (sdi : sr_dev_inst) : State σ → List sr_datafeed_packet → Result σ
  | s, [] => ⟨s, [], .returned⟩
  | s, packet :: rest =>
    let r := datafeed_in env sdi s packet
    match r.status with
    | .returned =>
      let r2 := run env sdi r.state rest
      ⟨r2.state, r.effects ++ r2.effects, r2.status⟩
    | st => ⟨r.state, r.effects, st⟩

/-- The effects that hand sample bytes to the capture store. -/
def Effect.to_store : Effect → Bool
  | .sr_datastore_put _ _ _ _ => true
  | _ => false

/-- The effects that hand sample bytes to the decoder stack. -/
def Effect.to_decoders : Effect → Bool
  | .srd_session_send _ _ _ => true
  | _ => false

/-- The effects that hand sample bytes to the output module's data hook. -/
def Effect.to_module : Effect → Bool
  | .call_data _ _ => true
  | _ => false

/-- The byte length handed to a sample sink by an effect, if it is one. -/
def Effect.sample_len : Effect → Option Nat
  | .sr_datastore_put _ len _ _ => some len
  | .srd_session_send _ _ len => some len
  | .call_data _ len => some len
  | _ => none

/-! ## Probe selection -/

/-- SR_OK of libsigrok. -/
def SR_OK : Int := 0

/-- SR_ERR of libsigrok. -/
def SR_ERR : Int := -1

/-- The loop of lines 1075-1081 from the list cell at position `pos` on: a probe
is enabled when `g_slist_find` finds its pointer among the selected ones, and
disabled otherwise. -/
def select_probes_loop (selected_probes : List Nat) : Nat → List sr_probe → List sr_probe
  | _, [] => []
  | pos, probe :: rest =>
    { probe with enabled := decide (pos ∈ selected_probes) } ::
      select_probes_loop selected_probes (pos + 1) rest

/-- The function `select_probes` (lines 1064-1085).  `parse_probestring` lives in
another file of the program and is a parameter: it returns the selected probes as
positions in `sdi->probes` (the list cells point to those probe structs), the
empty list being the NULL it returns on a parse error.  Gives the return value
and the device with its `enabled` flags rewritten. -/
def select_probes (opt_probes : Option String)
    (parse_probestring : sr_dev_inst → String → List Nat) (sdi : sr_dev_inst) :
    Int × sr_dev_inst :=
  match opt_probes with
  | none => (SR_OK, sdi)
  | some probestring =>
    let selected_probes := parse_probestring sdi probestring
    if selected_probes.isEmpty then (SR_ERR, sdi)
    else (SR_OK, { probes := select_probes_loop selected_probes 0 sdi.probes })

/-! ## Protocol decoders: registration and annotation output -/

/-- The table `pd_ann_visible`: instance id to the annotation format stored as
the pointer-sized value (`GINT_TO_POINTER`; the NULL pointer is the value 0).
`key_equal` says when the table takes two ids for the same key; the source
creates it with `g_str_hash` and `g_int_equal`. -/
structure GHashTable where
  key_equal : String → String → Bool
  entries : List (String × Int)

/-- GLib `g_hash_table_insert`: replaces the value of a matching key, else adds
the entry. -/
def g_hash_table_insert (t : GHashTable) (key : String) (value : Int) : GHashTable :=
  if t.entries.any (fun e => t.key_equal e.1 key) then
    { t with entries := t.entries.map (fun e => if t.key_equal e.1 key then (e.1, value) else e) }
  else { t with entries := t.entries ++ [(key, value)] }

/-- GLib `g_hash_table_remove`. -/
def g_hash_table_remove (t : GHashTable) (key : String) : GHashTable :=
  { t with entries := t.entries.filter (fun e => !t.key_equal e.1 key) }

/-- GLib `g_hash_table_lookup_extended`: the stored value when the key is
present. -/
def g_hash_table_lookup_extended (t : GHashTable) (key : String) : Option Int :=
  (t.entries.find? (fun e => t.key_equal e.1 key)).map Prod.snd

/-- The fields of `struct srd_proto_data` and of the decoder instance behind it
that `show_pd_annotations` reads. -/
structure srd_proto_data where
  inst_id : String
  proto_id : String
  ann_format : Int
  start_sample : Nat
  end_sample : Nat
  data : List String

/-- SR_LOG_WARN of libsigrok. -/
def SR_LOG_WARN : Int := 2

/-- The callback `show_pd_annotations` (lines 1033-1062): the text it prints to
standard output, `none` when it returns without printing. -/
def show_pd_annotations (opt_loglevel : Int) (pd_ann_visible : Option GHashTable)
    (pdata : srd_proto_data) : Option String :=
  match pd_ann_visible with
  | none => none
  | some table =>
    match g_hash_table_lookup_extended table pdata.inst_id with
    | none => none
    | some ann_format =>
      if pdata.ann_format ≠ ann_format then none
      else
        some ((if opt_loglevel > SR_LOG_WARN then
                 toString pdata.start_sample ++ "-" ++ toString pdata.end_sample ++ " "
               else "") ++
              pdata.proto_id ++ ": " ++
              String.join (pdata.data.map (fun a => "\"" ++ a ++ "\" ")) ++ "\n")

/-- A decoder instance as the decoder library hands it out. -/
structure srd_decoder_inst where
  inst_id : String
  decoder_id : String
  deriving DecidableEq, Repr

/-- Options and library behaviour the decoder setup depends on. -/
structure PdEnv where
  opt_pd_annotations : Option String
  /-- The table's key comparison, see `GHashTable`. -/
  key_equal : String → String → Bool
  /-- The helper `parse_generic_arg(arg, TRUE)` of the program's option parser:
  the key/value pairs, the decoder name under "sigrok_key"; `none` for NULL. -/
  parse_generic_arg : String → Option (List (String × String))
  /-- Library `srd_decoder_load`: whether it returns `SRD_OK`. -/
  srd_decoder_load : Option String → Bool
  /-- Library `srd_inst_new`: the new instance, `none` for NULL. -/
  srd_inst_new : Option String → List (String × String) → Option srd_decoder_inst
  /-- Library `srd_inst_probe_set_all`: whether it returns `SRD_OK`. -/
  srd_inst_probe_set_all : srd_decoder_inst → List (String × String) → Bool

/-- What decoder setup builds: the visibility table and the instances the
decoder library holds, in creation order. -/
structure PdState where
  pd_ann_visible : Option GHashTable
  instances : List srd_decoder_inst

/-- GLib `g_strsplit(string, delimiter, 0)` for a one-character delimiter, on the
characters: the pieces between delimiters. -/
def split_chars (delimiter : Char) : List Char → List Char → List (List Char)
  | [], piece => [piece.reverse]
  | c :: rest, piece =>
    if c = delimiter then piece.reverse :: split_chars delimiter rest []
    else split_chars delimiter rest (c :: piece)

/-- GLib `g_strsplit(string, delimiter, 0)`: the empty string gives no piece. -/
def g_strsplit (string : String) (delimiter : Char) : List String :=
  if string.data.isEmpty then [] else (split_chars delimiter string.data []).map String.mk

/-- The loop of `register_pds` (lines 834-871) over the directives still to do;
gives `ret` and the state at `err_out`. -/
def register_pds_loop (env : PdEnv) : List String → PdState → Int × PdState
  | [], st => (0, st)
  | pdtok :: rest, st =>
    match env.parse_generic_arg pdtok with
    | none => (0, st)
    | some pd_opthash =>
      let pd_name := (pd_opthash.find? (fun kv => kv.1 = "sigrok_key")).map Prod.snd
      let pd_opthash := pd_opthash.filter (fun kv => kv.1 ≠ "sigrok_key")
      if !env.srd_decoder_load pd_name then (1, st)
      else
        match env.srd_inst_new pd_name pd_opthash with
        | none => (1, st)
        | some di =>
          let st1 : PdState :=
            { instances := st.instances ++ [di],
              pd_ann_visible :=
                if env.opt_pd_annotations.isNone then
                  st.pd_ann_visible.map (fun t => g_hash_table_insert t di.inst_id 0)
                else st.pd_ann_visible }
          if !env.srd_inst_probe_set_all di pd_opthash then (1, st1)
          else register_pds_loop env rest st1

/-- The function `register_pds` (lines 819-881): a new, empty `pd_ann_visible`,
then the loop over the comma-separated directives. -/
def register_pds (env : PdEnv) (st : PdState) (pdstring : String) : Int × PdState :=
  register_pds_loop env (g_strsplit pdstring ',')
    { st with pd_ann_visible := some { key_equal := env.key_equal, entries := [] } }

/-! ## Instances on which the definitions are evaluated -/

/-- Modelled from the spec: the lane packing of one sample by the library
transcoder `sr_filter_probes` of libsigrok, which is not part of this program
(Bit-Packing Transcoder: "each output sample contains only the enabled lanes,
packed from bit 0 upward").  Reads the lane list up to its sentinel. -/
def spec_pack_sample (sample_in : Nat) : List Int → Nat
  | [] => 0
  | lane :: rest =>
    if lane < 0 then 0
    else sample_in / 2 ^ lane.toNat % 2 + 2 * spec_pack_sample sample_in rest

/-- Modelled from the spec: the sample loop of the library transcoder
`sr_filter_probes`: `count` samples of `in_unitsize` little-endian bytes each go
to `out_unitsize` little-endian bytes each, in order. -/
def spec_pack_samples (in_unitsize out_unitsize : Nat) (probelist : List Int) :
    Nat → List Nat → List Nat
  | 0, _ => []
  | count + 1, data =>
    let sample_in := (data.take in_unitsize).foldr (fun b acc => b + 256 * acc) 0
    let sample_out := spec_pack_sample sample_in probelist
    (List.range out_unitsize).map (fun j => sample_out / 256 ^ j % 256) ++
      spec_pack_samples in_unitsize out_unitsize probelist count (data.drop in_unitsize)

/-- Modelled from the spec: the library transcoder `sr_filter_probes` of
libsigrok (Bit-Packing Transcoder): sample boundaries follow the declared source
sample size, the output uses UnitSize bytes per sample, and it always succeeds. -/
def spec_filter_probes (in_unitsize out_unitsize : Nat) (probelist : List Int)
    (data_in : List Nat) (length_in : Nat) : Option (List Nat × Nat) :=
  some (spec_pack_samples in_unitsize out_unitsize probelist (length_in / in_unitsize) data_in,
        length_in / in_unitsize * out_unitsize)

/-- An output format with a data hook for logic packets only: it hands back the
bytes it was given; its state counts the hook calls. -/
def fmt_data : sr_output_format Nat :=
  { df_type := .SR_DF_LOGIC, init := none,
    data := some (fun m buf len => (m + 1, some (buf.take len))),
    event := none, recv := none, cleanup := none }

/-- An output format with only the generic per-packet hook: it hands back one
byte for every logic packet. -/
def fmt_recv : sr_output_format Nat :=
  { df_type := .SR_DF_LOGIC, init := none, data := none, event := none,
    recv := some (fun m packet =>
      match packet with
      | .logic _ => (m + 1, some [35])
      | _ => (m + 1, none)),
    cleanup := none }

/-- An output format whose data hook is declared for analog packets. -/
def fmt_analog : sr_output_format Nat :=
  { df_type := .SR_DF_ANALOG, init := none,
    data := some (fun m buf len => (m + 1, some (buf.take len))),
    event := none, recv := none, cleanup := none }

/-- A session writing to standard output, no decoders, with the given format and
sample limit, on top of the transcoder `spec_filter_probes`; allocation
succeeds, the probe list arrays have the 64 entries of libsigrok, and the
never-set `output_buf` is found NULL. -/
def env_stdout (fmt : sr_output_format Nat) (limit_samples : Nat) : Env Nat :=
  { limit_samples := limit_samples, output_format := fmt, fresh := 0,
    default_output_format := false, opt_wait_trigger := false, opt_output_file := none,
    opt_pds := none, opt_continuous := false, sr_filter_probes := spec_filter_probes,
    sr_datastore_new := fun _ => true, g_fopen := fun path => .file path,
    srd_session_send := fun _ _ _ => true, g_try_malloc := true, SR_MAX_NUM_PROBES := 64,
    output_buf_stale := false }

/-- A device with three probes A, B, C of which A and C are enabled. -/
def sdi_abc : sr_dev_inst :=
  { probes := [⟨0, "A", true⟩, ⟨1, "B", false⟩, ⟨2, "C", true⟩] }

/-- A logic packet of `n` one-byte samples, each with bits 0 and 2 set. -/
def logic_bytes (n : Nat) : sr_datafeed_packet :=
  .logic { length := n, unitsize := 1, data := List.replicate n 5 }

/-- Modelled from the spec: the helper `parse_probestring` of the program's option
parser, which is not in this source file, for a selection expression that is a
comma-separated list of probe names (the index ranges of the full syntax are
left out): the positions of the named probes, in the order written, and the
empty list (NULL) as soon as one name is unknown. -/
def spec_parse_probestring (sdi : sr_dev_inst) (probestring : String) : List Nat :=
  let found := (g_strsplit probestring ',').map
    (fun name => sdi.probes.findIdx? (fun probe => probe.name = name))
  if found.all Option.isSome then found.filterMap id else []

/-- A decoder setup without an annotation list, in which every directive is a
bare decoder name, every decoder loads, and an instance takes the decoder's
name as its id; ids are the same key when they are the same string. -/
def pd_env_plain : PdEnv :=
  { opt_pd_annotations := none, key_equal := fun a b => a == b,
    parse_generic_arg := fun arg => some [("sigrok_key", arg)],
    srd_decoder_load := fun name => name.isSome,
    srd_inst_new := fun name _ => name.map (fun id => ⟨id, id⟩),
    srd_inst_probe_set_all := fun _ _ => true }

/-- The effects that offer a packet to the generic per-packet hook. -/
def Effect.to_recv : Effect → Bool
  | .call_recv _ => true
  | _ => false

/-- An output format with a data hook for logic packets and an event hook that
hands back one byte for every event. -/
def fmt_event : sr_output_format Nat :=
  { df_type := .SR_DF_LOGIC, init := none,
    data := some (fun m buf len => (m + 1, some (buf.take len))),
    event := some (fun m _ => (m + 1, some [84])), recv := none, cleanup := none }

/-- A session that writes, in an explicitly chosen format, to an output file
which `g_fopen` cannot open. -/
def env_unwritable (fmt : sr_output_format Nat) : Env Nat :=
  { limit_samples := 0, output_format := fmt, fresh := 0,
    default_output_format := false, opt_wait_trigger := false,
    opt_output_file := some "/nonexistent/out", opt_pds := none, opt_continuous := false,
    sr_filter_probes := spec_filter_probes, sr_datastore_new := fun _ => true,
    g_fopen := fun _ => .null, srd_session_send := fun _ _ _ => true, g_try_malloc := true,
    SR_MAX_NUM_PROBES := 64, output_buf_stale := false }

/-- A device with three probes A, B, C, none of them enabled. -/
def sdi_none : sr_dev_inst :=
  { probes := [⟨0, "A", false⟩, ⟨1, "B", false⟩, ⟨2, "C", false⟩] }

/-! ## Protocol decoders: the stack -/

/-- Options and decoder library behaviour `setup_pd_stack` depends on.  `L` is
the state the decoder library keeps about its instances; an instance is known
by its record. -/
structure StackEnv (L : Type) where
  opt_pds : String
  opt_pd_stack : Option String
  opt_pd_annotations : Option String
  /-- Library `srd_inst_find_by_id(id)`; the id is `none` for the NULL pointer,
  the result `none` for NULL. -/
  srd_inst_find_by_id : L → Option String → Option srd_decoder_inst
  /-- Library `srd_inst_stack(di_from, di_to)`: the library state after the call,
  `none` when it does not return `SRD_OK`. -/
  srd_inst_stack : L → srd_decoder_inst → srd_decoder_inst → Option L

/-- What `setup_pd_stack` works on: the visibility table, the decoder library's
state, and the stack edges made so far (from, to), in the order made. -/
structure StackState (L : Type) where
  pd_ann_visible : Option GHashTable
  lib : L
  stacked : List (srd_decoder_inst × srd_decoder_inst)

/-- The loop of `setup_pd_stack` (lines 914-935) over the entries `pds[i]` still
to do, with the current `di_from`; gives the return value and the state. -/
def setup_pd_stack_loop {L : Type} (env : StackEnv L) :
    List String → srd_decoder_inst → StackState L → Int × StackState L
  | [], _, st => (0, st)
  | pd :: rest, di_from, st =>
    match env.srd_inst_find_by_id st.lib (g_strsplit pd ':').head? with
    | none => (1, st)
    | some di_to =>
      match env.srd_inst_stack st.lib di_from di_to with
      | none => (1, st)
      | some lib =>
        setup_pd_stack_loop env rest di_to
          { pd_ann_visible :=
              if env.opt_pd_annotations.isNone then
                st.pd_ann_visible.map (fun t => g_hash_table_remove t di_from.inst_id)
              else st.pd_ann_visible,
            lib := lib,
            stacked := st.stacked ++ [(di_from, di_to)] }

/-- The list `pds` that lines 890-901 leave for the stacking: the directives, or
the entries of the explicit stack string; `none` when that string has fewer
than two entries. -/
def stack_entries {L : Type} (env : StackEnv L) : Option (List String) :=
  match env.opt_pd_stack with
  | none => some (g_strsplit env.opt_pds ',')
  | some stack =>
    if (g_strsplit stack ',').length < 2 then none else some (g_strsplit stack ',')

/-- The function `setup_pd_stack` (lines 883-940).  The list left for the
stacking has at least two entries on both ways into line 904, so `pds[0]`
exists; the case of an empty list is there for totality only. -/
def setup_pd_stack {L : Type} (env : StackEnv L) (st : StackState L) : Int × StackState L :=
  if (g_strsplit env.opt_pds ',').length > 1 then
    match stack_entries env with
    | none => (1, st)
    | some [] => (0, st)
    | some (pd :: rest) =>
      match env.srd_inst_find_by_id st.lib (g_strsplit pd ':').head? with
      | none => (1, st)
      | some di_from => setup_pd_stack_loop env rest di_from st
  else (0, st)

/-- Modelled from the spec: the helper `parse_generic_arg(arg, TRUE)` of the
program's option parser, which is not in this source file, for a decoder
directive `decoderId[:option=value]*`: the decoder id under "sigrok_key" and
one pair per option; the empty directive is structurally invalid and gives
NULL. -/
def spec_parse_generic_arg (arg : String) : Option (List (String × String)) :=
  match g_strsplit arg ':' with
  | [] => none
  | key :: options =>
    some (("sigrok_key", key) ::
      options.map (fun option =>
        ((g_strsplit option '=').headD "", ((g_strsplit option '=').tail).headD "")))

/-- A decoder setup without an annotation list on top of `spec_parse_generic_arg`:
every decoder loads, and an instance gets the value of its "id" option as id,
the decoder's name when there is none; ids are the same key when they are the
same string. -/
def pd_env_spec : PdEnv :=
  { opt_pd_annotations := none, key_equal := fun a b => a == b,
    parse_generic_arg := spec_parse_generic_arg,
    srd_decoder_load := fun name => name.isSome,
    srd_inst_new := fun name options =>
      name.map (fun decoder_id =>
        ⟨((options.find? (fun kv => kv.1 = "id")).map Prod.snd).getD decoder_id, decoder_id⟩),
    srd_inst_probe_set_all := fun _ _ => true }

/-- A decoder library that finds an instance by its id among the instances not
yet stacked on another one, the first such in creation order, and whose
stacking always succeeds and takes the stacked instance off that list. -/
def stack_env (opt_pds : String) (opt_pd_stack : Option String) :
    StackEnv (List srd_decoder_inst) :=
  { opt_pds := opt_pds, opt_pd_stack := opt_pd_stack, opt_pd_annotations := none,
    srd_inst_find_by_id := fun lib id =>
      match id with
      | none => none
      | some id => lib.find? (fun di => di.inst_id = id),
    srd_inst_stack := fun lib _ di_to => some (lib.erase di_to) }

/-- The decoder setup of `main` (lines 1507-1513) for a decoder string, without
an annotation list: `register_pds`, then, if that returned 0, `setup_pd_stack`
on the instances registered. -/
def setup_decoders (opt_pds : String) (opt_pd_stack : Option String) :
    Int × StackState (List srd_decoder_inst) :=
  let r := register_pds pd_env_spec ⟨none, []⟩ opt_pds
  if r.1 ≠ 0 then (r.1, ⟨r.2.pd_ann_visible, r.2.instances, []⟩)
  else setup_pd_stack (stack_env opt_pds opt_pd_stack) ⟨r.2.pd_ann_visible, r.2.instances, []⟩

/-- The loop body of `register_pds` runs through for the directive `pdtok` and
creates the instance `di`: the directive parses, the decoder loads, the
instance is created and its probes are set. -/
def registers (env : PdEnv) (pdtok : String) (di : srd_decoder_inst) : Prop :=
  ∃ pd_opthash, env.parse_generic_arg pdtok = some pd_opthash ∧
    env.srd_decoder_load
      ((pd_opthash.find? (fun kv => kv.1 = "sigrok_key")).map Prod.snd) = true ∧
    env.srd_inst_new ((pd_opthash.find? (fun kv => kv.1 = "sigrok_key")).map Prod.snd)
      (pd_opthash.filter (fun kv => kv.1 ≠ "sigrok_key")) = some di ∧
    env.srd_inst_probe_set_all di (pd_opthash.filter (fun kv => kv.1 ≠ "sigrok_key")) = true

/-- A device with `n` probes, indices 0 to `n - 1`, all enabled. -/
def sdi_full (n : Nat) : sr_dev_inst :=
  { probes := (List.range n).map (fun i => ⟨(i : Int), "P", true⟩) }

/-- GLib `g_str_hash` on an ASCII string, whose characters are its bytes: the
hash `h = 5381`, then `h = h * 33 + c` for every byte, as a 32-bit value. -/
def g_str_hash (v : String) : Nat :=
  v.data.foldl (fun h c => (h * 33 + c.toNat) % 2 ^ 32) 5381

/-- GLib `g_int_equal` handed two ASCII strings: it compares the `gint` each
pointer points to, which is the first four bytes of the string, its terminating
NUL included.  A string of fewer than three characters has fewer than four
bytes; what is read past its terminator is taken as NUL. -/
def g_int_equal (v1 v2 : String) : Bool :=
  ((v1.data.map Char.toNat ++ [0, 0, 0, 0]).take 4) ==
    ((v2.data.map Char.toNat ++ [0, 0, 0, 0]).take 4)

/-- The decoder setup of `pd_env_spec` with the key comparison of the table
line 829 creates: GLib takes two keys for the same when their `g_str_hash`
values agree and `g_int_equal` holds for them. -/
def pd_env_glib : PdEnv :=
  { pd_env_spec with
    key_equal := fun a b => g_str_hash a == g_str_hash b && g_int_equal a b }

/-! ## The packet state machine: gates of line 565 and of the logic case -/

/-- With a live module, a logic packet goes through the logic case and then the
generic per-packet hook. -/
theorem datafeed_in_logic_alive {σ : Type} (env : Env σ) (sdi : sr_dev_inst) (s : State σ)
    (m : σ) (logic : sr_datafeed_logic) (ho : s.o = some m) :
    datafeed_in env sdi s (.logic logic) =
      match (datafeed_in_logic env s m logic).status with
      | .returned =>
        ⟨(datafeed_in_recv env (datafeed_in_logic env s m logic).state (.logic logic)).1,
          (datafeed_in_logic env s m logic).effects ++
            (datafeed_in_recv env (datafeed_in_logic env s m logic).state (.logic logic)).2,
          .returned⟩
      | st => ⟨(datafeed_in_logic env s m logic).state, (datafeed_in_logic env s m logic).effects, st⟩ := by
  simp [datafeed_in, datafeed_in_switch, ho, sr_datafeed_packet.type]

/-- The generic per-packet hook hands no sample bytes to the capture store, the
decoder stack or the data hook, and writes only what the hook returned. -/
theorem datafeed_in_recv_effects {σ : Type} (env : Env σ) (s : State σ)
    (packet : sr_datafeed_packet) (e : Effect) (he : e ∈ (datafeed_in_recv env s packet).2) :
    e.to_store = false ∧ e.to_decoders = false ∧ e.to_module = false ∧
      ∀ stream bytes, e = .fwrite stream bytes →
        ∃ m recv, s.o = some m ∧ env.output_format.recv = some recv ∧
          (recv m packet).2 = some bytes := by
  unfold datafeed_in_recv at he
  split at he
  · rename_i m recv hm hr
    simp only [List.mem_cons] at he
    rcases he with rfl | he
    · simp [Effect.to_store, Effect.to_decoders, Effect.to_module]
    · split at he
      · simp at he
      · rename_i out hout
        split at he
        · simp only [List.mem_cons, List.mem_singleton, List.not_mem_nil, or_false] at he
          rcases he with rfl | rfl
          · refine ⟨rfl, rfl, rfl, ?_⟩
            intro stream bytes hb
            injection hb with h1 h2
            subst h2
            exact ⟨m, recv, hm, hr, hout⟩
          · simp [Effect.to_store, Effect.to_decoders, Effect.to_module]
        · simp at he
  · simp at he

/-- The guard of line 565: without a module a packet other than a Header makes
`datafeed_in` return at once. -/
theorem datafeed_in_guard {σ : Type} (env : Env σ) (sdi : sr_dev_inst)
    (s : State σ) (packet : sr_datafeed_packet) (ho : s.o = none)
    (ht : packet.type ≠ .SR_DF_HEADER) :
    datafeed_in env sdi s packet = ⟨s, [], .returned⟩ := by
  simp [datafeed_in, ho, ht]

/-- C5. While no output module is active (before the first Header, or after an
End) every packet that is not a Header is a no-op: `datafeed_in` returns with
the whole session state unchanged and without a single effect. -/
theorem datafeed_in_ignored_without_module {σ : Type} (env : Env σ) (sdi : sr_dev_inst)
    (s : State σ) (packet : sr_datafeed_packet) (ho : s.o = none)
    (ht : packet.type ≠ .SR_DF_HEADER) :
    datafeed_in env sdi s packet = ⟨s, [], .returned⟩ :=
  datafeed_in_guard env sdi s packet ho ht

/-- Witness of C5, in the state an End leaves behind: a logic packet after
Header, End. -/
theorem datafeed_in_ignored_without_module_witness :
    datafeed_in (env_stdout fmt_data 0) sdi_abc
        (run (env_stdout fmt_data 0) sdi_abc (State.initial Nat) [.header, .end_]).state
        (logic_bytes 4) =
      ⟨(run (env_stdout fmt_data 0) sdi_abc (State.initial Nat) [.header, .end_]).state, [],
        .returned⟩ :=
  datafeed_in_ignored_without_module _ _ _ _ (by decide) (by decide)

/-- C6. End is idempotent: whatever the state, the first End returns and leaves no
module; a second End right after it returns with the state unchanged and no
effect, so the two-End sequence gives the same state and the same effects as
one End. -/
theorem datafeed_in_end_idempotent {σ : Type} (env : Env σ) (sdi : sr_dev_inst)
    (s : State σ) :
    (datafeed_in env sdi s .end_).status = .returned ∧
    (datafeed_in env sdi s .end_).state.o = none ∧
    datafeed_in env sdi (datafeed_in env sdi s .end_).state .end_ =
      ⟨(datafeed_in env sdi s .end_).state, [], .returned⟩ ∧
    run env sdi s [.end_, .end_] = run env sdi s [.end_] := by
  have h1 : (datafeed_in env sdi s .end_).status = .returned := by
    cases ho : s.o <;>
      simp [datafeed_in, datafeed_in_switch, datafeed_in_end, ho, sr_datafeed_packet.type]
  have h2 : (datafeed_in env sdi s .end_).state.o = none := by
    cases ho : s.o <;>
      simp [datafeed_in, datafeed_in_switch, datafeed_in_end, datafeed_in_recv, ho,
        sr_datafeed_packet.type]
  have h3 : datafeed_in env sdi (datafeed_in env sdi s .end_).state .end_ =
      ⟨(datafeed_in env sdi s .end_).state, [], .returned⟩ :=
    datafeed_in_guard env sdi _ _ h2 (by simp [sr_datafeed_packet.type])
  refine ⟨h1, h2, h3, ?_⟩
  simp [run, h1, h3]

/-- A logic packet that passes the gates of lines 666-674, is transcoded, and
declares a non-zero source sample size: the logic case routes the truncated
buffer; it then faults at the `g_free` of line 711 if that is handed the
never-set pointer, and counts the packet and returns if not. -/
theorem datafeed_in_logic_routed {σ : Type} (env : Env σ) (s : State σ) (m : σ)
    (logic : sr_datafeed_logic) (filter_out : List Nat) (filter_out_len : Nat)
    (hlen : logic.length ≠ 0)
    (htrig : env.opt_wait_trigger = false ∨ s.triggered = true)
    (hlim : env.limit_samples = 0 ∨ s.received_samples < env.limit_samples)
    (hf : env.sr_filter_probes logic.unitsize s.unitsize s.logic_probelist logic.data
      logic.length = some (filter_out, filter_out_len))
    (hss : logic.unitsize ≠ 0) :
    datafeed_in_logic env s m logic =
      if route_logic_faults env = true then
        ⟨{ s with
            o := some (route_logic env s m logic.unitsize filter_out
              (truncated_len env.limit_samples s.received_samples logic.length logic.unitsize
                filter_out_len)).1 },
          (route_logic env s m logic.unitsize filter_out
            (truncated_len env.limit_samples s.received_samples logic.length logic.unitsize
              filter_out_len)).2,
          .fault .free_unset_output_buf⟩
      else
        ⟨{ s with
            o := some (route_logic env s m logic.unitsize filter_out
              (truncated_len env.limit_samples s.received_samples logic.length logic.unitsize
                filter_out_len)).1,
            received_samples := (s.received_samples + logic.length / logic.unitsize) % U64 },
          (route_logic env s m logic.unitsize filter_out
            (truncated_len env.limit_samples s.received_samples logic.length logic.unitsize
              filter_out_len)).2,
          .returned⟩ := by
  have h2 : (env.opt_wait_trigger && !s.triggered) = false := by
    rcases htrig with h | h <;> simp [h]
  have h3 : ¬ (env.limit_samples ≠ 0 ∧ s.received_samples ≥ env.limit_samples) := by
    rcases hlim with h | h
    · simp [h]
    · intro hc
      exact absurd hc.2 (by omega)
  unfold datafeed_in_logic
  simp only [hlen, h2, h3, hf, hss, if_false, and_false, Bool.false_eq_true]

/-- The generic per-packet hook leaves `singleds` alone. -/
theorem datafeed_in_recv_singleds {σ : Type} (env : Env σ) (s : State σ)
    (packet : sr_datafeed_packet) :
    (datafeed_in_recv env s packet).1.singleds = s.singleds := by
  unfold datafeed_in_recv
  split <;> rfl

/-- The destination chosen at a meta packet creates the datastore only for an
output file in the default format. -/
theorem open_destination_singleds {σ : Type} (env : Env σ) (s : State σ) (unitsize : Nat)
    (hinv : s.singleds.isSome = true →
      env.opt_output_file.isSome = true ∧ env.default_output_format = true) :
    (open_destination env s unitsize).singleds.isSome = true →
      env.opt_output_file.isSome = true ∧ env.default_output_format = true := by
  unfold open_destination
  split
  · simpa using hinv
  · rename_i path hp
    split
    · rename_i hd
      split
      · intro _
        simp [hp, hd]
      · simpa using hinv
    · simpa using hinv

/-- The datastore exists only in sessions that write an output file in the
default format: the switch keeps this true. -/
theorem datafeed_in_switch_singleds {σ : Type} (env : Env σ) (sdi : sr_dev_inst)
    (s : State σ) (mo : Option σ) (packet : sr_datafeed_packet)
    (hinv : s.singleds.isSome = true →
      env.opt_output_file.isSome = true ∧ env.default_output_format = true) :
    (datafeed_in_switch env sdi s mo packet).state.singleds.isSome = true →
      env.opt_output_file.isSome = true ∧ env.default_output_format = true := by
  cases packet with
  | meta_logic ml =>
    simp only [datafeed_in_switch, datafeed_in_meta_logic]
    split
    · exact hinv
    · split
      · exact hinv
      · split <;> exact open_destination_singleds env _ _ hinv
  | meta_analog ma =>
    simp only [datafeed_in_switch, datafeed_in_meta_analog]
    split
    · exact hinv
    · split <;> exact open_destination_singleds env _ _ hinv
  | _ =>
    cases mo <;>
    simp only [datafeed_in_switch, datafeed_in_header, datafeed_in_end, datafeed_in_trigger,
      datafeed_in_logic, datafeed_in_analog, datafeed_in_frame] <;>
    (repeat' split) <;> exact hinv

/-- One call of `datafeed_in` keeps the datastore tied to the output file in the
default format. -/
theorem datafeed_in_singleds {σ : Type} (env : Env σ) (sdi : sr_dev_inst)
    (s : State σ) (packet : sr_datafeed_packet)
    (hinv : s.singleds.isSome = true →
      env.opt_output_file.isSome = true ∧ env.default_output_format = true) :
    (datafeed_in env sdi s packet).state.singleds.isSome = true →
      env.opt_output_file.isSome = true ∧ env.default_output_format = true := by
  unfold datafeed_in
  split
  · exact hinv
  · have hsw := datafeed_in_switch_singleds env sdi s s.o packet hinv
    dsimp only
    split
    · simpa only [datafeed_in_recv_singleds] using hsw
    · exact hsw

/-- In every state a packet sequence leads to from the initial state, the
datastore exists only if the session writes an output file in the default
format. -/
theorem run_singleds {σ : Type} (env : Env σ) (sdi : sr_dev_inst)
    (packets : List sr_datafeed_packet) :
    ∀ s : State σ,
      (s.singleds.isSome = true →
        env.opt_output_file.isSome = true ∧ env.default_output_format = true) →
      (run env sdi s packets).state.singleds.isSome = true →
        env.opt_output_file.isSome = true ∧ env.default_output_format = true := by
  induction packets with
  | nil => intro s hinv; simpa [run] using hinv
  | cons packet rest ih =>
    intro s hinv
    have h1 := datafeed_in_singleds env sdi s packet hinv
    unfold run
    dsimp only
    split
    · exact ih _ h1
    · exact h1

/-- Which sinks `route_logic` hands the buffer to. -/
theorem route_logic_counts {σ : Type} (env : Env σ) (s : State σ) (m : σ)
    (sample_size : Nat) (filter_out : List Nat) (len : Nat) :
    (route_logic env s m sample_size filter_out len).2.countP Effect.to_store =
      (if s.singleds.isSome then 1 else 0) ∧
    (route_logic env s m sample_size filter_out len).2.countP Effect.to_decoders =
      (if env.opt_output_file.isSome && env.default_output_format then 0
       else if env.opt_pds.isSome then 1 else 0) ∧
    (route_logic env s m sample_size filter_out len).2.countP Effect.to_module =
      (if env.opt_output_file.isSome && env.default_output_format then 0
       else if env.opt_pds.isSome then 0
       else if env.output_format.data.isSome ∧ env.output_format.df_type = .SR_DF_LOGIC then 1
       else 0) := by
  unfold route_logic
  cases hs : s.singleds.isSome <;>
  cases hfd : (env.opt_output_file.isSome && env.default_output_format) <;>
  cases hp : env.opt_pds.isSome <;>
  cases hsend : env.srd_session_send s.received_samples filter_out len <;>
  cases hd : env.output_format.data <;>
  cases hst : env.output_buf_stale <;>
  by_cases hty : env.output_format.df_type = .SR_DF_LOGIC <;>
  simp [hty, hst, unset_output_buf, List.countP_cons, Effect.to_store, Effect.to_decoders,
    Effect.to_module] <;>
  (cases (‹σ → List ℕ → ℕ → σ × Option (List ℕ)› m filter_out len).2 <;>
    simp [write_out, List.countP_cons, Effect.to_store, Effect.to_decoders, Effect.to_module])

/-- The generic per-packet hook hands nothing to the three sample sinks. -/
theorem datafeed_in_recv_counts {σ : Type} (env : Env σ) (s : State σ)
    (packet : sr_datafeed_packet) :
    (datafeed_in_recv env s packet).2.countP Effect.to_store = 0 ∧
    (datafeed_in_recv env s packet).2.countP Effect.to_decoders = 0 ∧
    (datafeed_in_recv env s packet).2.countP Effect.to_module = 0 := by
  refine ⟨?_, ?_, ?_⟩ <;> rw [List.countP_eq_zero] <;> intro e he <;>
    have h := datafeed_in_recv_effects env s packet e he
  · simp [h.1]
  · simp [h.2.1]
  · simp [h.2.2.1]

/-- The effects of a logic packet that passes the gates, is transcoded and
declares a non-zero source sample size: those of the routing of lines 691-713,
followed by those of the generic hook unless the call ends at line 711. -/
theorem datafeed_in_logic_effects {σ : Type} (env : Env σ) (sdi : sr_dev_inst)
    (s : State σ) (m : σ) (logic : sr_datafeed_logic) (filter_out : List Nat)
    (filter_out_len : Nat) (ho : s.o = some m) (hlen : logic.length ≠ 0)
    (htrig : env.opt_wait_trigger = false ∨ s.triggered = true)
    (hlim : env.limit_samples = 0 ∨ s.received_samples < env.limit_samples)
    (hf : env.sr_filter_probes logic.unitsize s.unitsize s.logic_probelist logic.data
      logic.length = some (filter_out, filter_out_len))
    (hss : logic.unitsize ≠ 0) :
    ∃ t : State σ, (datafeed_in env sdi s (.logic logic)).effects =
      (route_logic env s m logic.unitsize filter_out
        (truncated_len env.limit_samples s.received_samples logic.length logic.unitsize
          filter_out_len)).2 ++
      (if route_logic_faults env = true then []
       else (datafeed_in_recv env t (.logic logic)).2) := by
  rw [datafeed_in_logic_alive env sdi s m logic ho,
    datafeed_in_logic_routed env s m logic filter_out filter_out_len hlen htrig hlim hf hss]
  cases hroute : route_logic_faults env with
  | true => exact ⟨s, by simp⟩
  | false => exact ⟨_, by simp; rfl⟩

/-- C8 (amended). In every state a packet sequence leads to from the initial
state, a logic packet that passes the gates (non-zero length, trigger
satisfied, limit not reached, transcoder returned a buffer, non-zero source
sample size) is handed to at most one of the three sinks, never to two: with an
output file in the default format, to the capture store if it has been created
and to no sink otherwise; else, with decoders configured, to the decoder stack
exactly once; else to the output module's data hook exactly once if the format
declares one for logic packets, and to no sink otherwise. -/
theorem logic_routed_to_at_most_one_sink {σ : Type} (env : Env σ) (sdi : sr_dev_inst)
    (packets : List sr_datafeed_packet) (s : State σ) (m : σ) (logic : sr_datafeed_logic)
    (filter_out : List Nat) (filter_out_len : Nat)
    (hs : s = (run env sdi (State.initial σ) packets).state)
    (ho : s.o = some m) (hlen : logic.length ≠ 0)
    (htrig : env.opt_wait_trigger = false ∨ s.triggered = true)
    (hlim : env.limit_samples = 0 ∨ s.received_samples < env.limit_samples)
    (hf : env.sr_filter_probes logic.unitsize s.unitsize s.logic_probelist logic.data
      logic.length = some (filter_out, filter_out_len))
    (hss : logic.unitsize ≠ 0) :
    (datafeed_in env sdi s (.logic logic)).effects.countP Effect.to_store +
      (datafeed_in env sdi s (.logic logic)).effects.countP Effect.to_decoders +
      (datafeed_in env sdi s (.logic logic)).effects.countP Effect.to_module ≤ 1 ∧
    (datafeed_in env sdi s (.logic logic)).effects.countP Effect.to_store =
      (if (env.opt_output_file.isSome && env.default_output_format) = true ∧
          s.singleds.isSome = true then 1 else 0) ∧
    (datafeed_in env sdi s (.logic logic)).effects.countP Effect.to_decoders =
      (if (env.opt_output_file.isSome && env.default_output_format) = true then 0
       else if env.opt_pds.isSome then 1 else 0) ∧
    (datafeed_in env sdi s (.logic logic)).effects.countP Effect.to_module =
      (if (env.opt_output_file.isSome && env.default_output_format) = true then 0
       else if env.opt_pds.isSome then 0
       else if env.output_format.data.isSome ∧ env.output_format.df_type = .SR_DF_LOGIC then 1
       else 0) := by
  have hinv : s.singleds.isSome = true →
      env.opt_output_file.isSome = true ∧ env.default_output_format = true := by
    rw [hs]
    exact run_singleds env sdi packets (State.initial σ) (by simp [State.initial])
  obtain ⟨t, ht⟩ := datafeed_in_logic_effects env sdi s m logic filter_out filter_out_len ho
    hlen htrig hlim hf hss
  obtain ⟨r1, r2, r3⟩ := datafeed_in_recv_counts env t (.logic logic)
  obtain ⟨c1, c2, c3⟩ := route_logic_counts env s m logic.unitsize filter_out
    (truncated_len env.limit_samples s.received_samples logic.length logic.unitsize
      filter_out_len)
  have e1 : ∀ p : Effect → Bool, (if route_logic_faults env = true then []
      else (datafeed_in_recv env t (.logic logic)).2).countP p =
      if route_logic_faults env = true then 0
      else (datafeed_in_recv env t (.logic logic)).2.countP p := by
    intro p
    split <;> simp
  simp only [ht, List.countP_append, e1, r1, r2, r3, c1, c2, c3, ite_self, Nat.add_zero]
  cases hsd : s.singleds.isSome
  · simp only [Bool.false_eq_true, and_false, if_false]
    refine ⟨?_, trivial, trivial, trivial⟩
    split
    · simp
    · split
      · simp
      · split <;> simp
  · obtain ⟨h1, h2⟩ := hinv hsd
    simp [h1, h2]

/-- Witness of C8 (amended): standard output, no decoders, a format with a data
hook for logic packets: the buffer goes to the data hook and nowhere else. -/
theorem logic_routed_to_at_most_one_sink_witness :
    (datafeed_in (env_stdout fmt_data 0) sdi_abc
      (run (env_stdout fmt_data 0) sdi_abc (State.initial Nat)
        [.header, .meta_logic ⟨3, 1000⟩]).state (logic_bytes 4)).effects.countP
        Effect.to_module = 1 := by
  have h := (logic_routed_to_at_most_one_sink (env_stdout fmt_data 0) sdi_abc
    [.header, .meta_logic ⟨3, 1000⟩]
    (run (env_stdout fmt_data 0) sdi_abc (State.initial Nat)
      [.header, .meta_logic ⟨3, 1000⟩]).state 0 ⟨4, 1, List.replicate 4 5⟩
    (List.replicate 4 3) 4 rfl (by decide) (by decide) (Or.inl rfl) (Or.inl rfl)
    (by decide) (by decide)).2.2.2
  exact h.trans (by decide)

/-- C8 as stated fails: standard output, no decoders, a format whose data hook
is declared for analog packets.  A logic packet of four samples passes every
gate and is transcoded (the counter goes to 4), yet the data hook is not called
for it (line 706) and the call has no effect at all: the bytes reach none of
the three sinks. -/
theorem logic_reaches_no_sink :
    (env_stdout fmt_analog 0).sr_filter_probes 1 1 [0, 2, -1] (List.replicate 4 5) 4 =
      some ([3, 3, 3, 3], 4) ∧
    (datafeed_in (env_stdout fmt_analog 0) sdi_abc
      (run (env_stdout fmt_analog 0) sdi_abc (State.initial Nat)
        [.header, .meta_logic ⟨3, 1000⟩]).state (logic_bytes 4)).state.received_samples = 4 ∧
    (datafeed_in (env_stdout fmt_analog 0) sdi_abc
      (run (env_stdout fmt_analog 0) sdi_abc (State.initial Nat)
        [.header, .meta_logic ⟨3, 1000⟩]).state (logic_bytes 4)).effects = [] := by
  decide

/-! ## Truncation at the sample limit -/

/-- The generic per-packet hook hands no sample buffer on. -/
theorem datafeed_in_recv_sample_len {σ : Type} (env : Env σ) (s : State σ)
    (packet : sr_datafeed_packet) (e : Effect) (he : e ∈ (datafeed_in_recv env s packet).2) :
    e.sample_len = none := by
  unfold datafeed_in_recv at he
  split at he
  · simp only [List.mem_cons] at he
    rcases he with rfl | he
    · rfl
    · split at he
      · simp at he
      · split at he
        · simp only [List.mem_cons, List.mem_singleton, List.not_mem_nil, or_false] at he
          rcases he with rfl | rfl <;> rfl
        · simp at he
  · simp at he

/-- Every sink `route_logic` hands the buffer to gets it with the length it was
called with. -/
theorem route_logic_sample_len {σ : Type} (env : Env σ) (s : State σ) (m : σ)
    (sample_size : Nat) (filter_out : List Nat) (len : Nat) (e : Effect)
    (he : e ∈ (route_logic env s m sample_size filter_out len).2) (n : Nat)
    (hn : e.sample_len = some n) : n = len := by
  unfold route_logic at he
  have hw : ∀ out, e ∈ write_out s.outfile out → e.sample_len = none := by
    intro out ho
    cases out with
    | none => simp [write_out] at ho
    | some bytes =>
      simp only [write_out, List.mem_cons, List.mem_singleton, List.not_mem_nil, or_false] at ho
      rcases ho with rfl | rfl <;> rfl
  have hu : e ∈ unset_output_buf env s → e.sample_len = none := by
    intro h
    unfold unset_output_buf at h
    split at h
    · simp only [List.mem_cons, List.mem_singleton, List.not_mem_nil, or_false] at h
      rcases h with rfl | rfl <;> rfl
    · simp at h
  have hput : e ∈ (if s.singleds.isSome = true then
      [Effect.sr_datastore_put filter_out len sample_size s.logic_probelist] else []) →
      n = len := by
    intro h
    split at h
    · simp only [List.mem_singleton] at h
      subst h
      simpa [Effect.sample_len] using hn.symm
    · simp at h
  dsimp only at he
  split at he
  · exact hput he
  · split at he
    · split at he
      · simp only [List.mem_append, List.mem_singleton] at he
        rcases he with he | rfl
        · exact hput he
        · simpa [Effect.sample_len] using hn.symm
      · simp only [List.mem_append, List.mem_cons, List.mem_singleton, List.not_mem_nil,
          or_false] at he
        rcases he with he | rfl | rfl
        · exact hput he
        · simpa [Effect.sample_len] using hn.symm
        · simp [Effect.sample_len] at hn
    · split at he
      · simp only [List.mem_append] at he
        rcases he with he | he
        · exact hput he
        · rw [hu he] at hn
          cases hn
      · split at he
        · simp only [List.mem_append, List.mem_cons] at he
          rcases he with he | rfl | he
          · exact hput he
          · simpa [Effect.sample_len] using hn.symm
          · rw [hw _ he] at hn
            cases hn
        · simp only [List.mem_append] at he
          rcases he with he | he
          · exact hput he
          · rw [hu he] at hn
            cases hn

/-- The length every sink is handed by a logic packet that passes the gates: the
result of the truncation test of lines 687-689. -/
theorem datafeed_in_logic_sample_len {σ : Type} (env : Env σ) (sdi : sr_dev_inst)
    (s : State σ) (m : σ) (logic : sr_datafeed_logic) (filter_out : List Nat)
    (filter_out_len : Nat) (ho : s.o = some m) (hlen : logic.length ≠ 0)
    (htrig : env.opt_wait_trigger = false ∨ s.triggered = true)
    (hlim : env.limit_samples = 0 ∨ s.received_samples < env.limit_samples)
    (hf : env.sr_filter_probes logic.unitsize s.unitsize s.logic_probelist logic.data
      logic.length = some (filter_out, filter_out_len))
    (hss : logic.unitsize ≠ 0) (e : Effect)
    (he : e ∈ (datafeed_in env sdi s (.logic logic)).effects) (n : Nat)
    (hn : e.sample_len = some n) :
    n = truncated_len env.limit_samples s.received_samples logic.length logic.unitsize
      filter_out_len := by
  obtain ⟨t, ht⟩ := datafeed_in_logic_effects env sdi s m logic filter_out filter_out_len ho
    hlen htrig hlim hf hss
  rw [ht] at he
  simp only [List.mem_append] at he
  rcases he with he | he
  · exact route_logic_sample_len env s m _ _ _ e he n hn
  · split at he
    · simp at he
    · rw [datafeed_in_recv_sample_len env _ _ e he] at hn
      cases hn

/-- With one-byte source samples and sums that fit 64 bits, the truncation test
fires exactly when the packet exceeds the remaining budget, and leaves that
budget. -/
theorem truncated_len_one_byte (limit_samples received_samples length filter_out_len : Nat)
    (hN : limit_samples ≠ 0) (hover : limit_samples < received_samples + length)
    (hfit : received_samples + length < U64) (hlim : received_samples < limit_samples) :
    truncated_len limit_samples received_samples length 1 filter_out_len =
      limit_samples - received_samples := by
  unfold truncated_len
  have h1 : (received_samples + length / 1) % U64 = received_samples + length := by
    rw [Nat.div_one]
    exact Nat.mod_eq_of_lt hfit
  have h2 : (limit_samples * 1) % U64 = limit_samples := by
    rw [Nat.mul_one]
    exact Nat.mod_eq_of_lt (by omega)
  have hU : 0 < U64 := by unfold U64; positivity
  rw [h1, h2, if_pos ⟨hN, hover⟩]
  have h3 : limit_samples + U64 - received_samples = (limit_samples - received_samples) + U64 := by
    omega
  rw [h3, Nat.add_mod_right]
  exact Nat.mod_eq_of_lt (by omega)

/-- Where byte counts and sample counts coincide the truncation does what the
comment of lines 682-686 announces.  A logic packet with one-byte source samples
that passes the gates with `limit_samples = N > 0` and UnitSize 1, and whose
samples exceed the remaining budget (`received_samples + length > N`, the sum
within 64 bits): every sink that is handed the transcoded buffer gets it with
the length `N * unitsize - received_samples`, which is a whole number of
UnitSize-byte samples, namely the `N - received_samples` samples still
allowed. -/
theorem logic_truncated_to_budget {σ : Type} (env : Env σ) (sdi : sr_dev_inst)
    (s : State σ) (m : σ) (logic : sr_datafeed_logic) (filter_out : List Nat)
    (filter_out_len : Nat) (ho : s.o = some m) (hN : env.limit_samples ≠ 0)
    (hlen : logic.length ≠ 0)
    (htrig : env.opt_wait_trigger = false ∨ s.triggered = true)
    (hlim : s.received_samples < env.limit_samples)
    (hf : env.sr_filter_probes logic.unitsize s.unitsize s.logic_probelist logic.data
      logic.length = some (filter_out, filter_out_len))
    (hone : logic.unitsize = 1) (hunit : s.unitsize = 1)
    (hover : env.limit_samples < s.received_samples + logic.length)
    (hfit : s.received_samples + logic.length < U64) :
    ∀ e ∈ (datafeed_in env sdi s (.logic logic)).effects, ∀ n, e.sample_len = some n →
      n = env.limit_samples * s.unitsize - s.received_samples ∧
      n % s.unitsize = 0 ∧
      n / s.unitsize = env.limit_samples - s.received_samples := by
  intro e he n hn
  have h := datafeed_in_logic_sample_len env sdi s m logic filter_out filter_out_len ho hlen
    htrig (Or.inr hlim) hf (by omega) e he n hn
  rw [hone, truncated_len_one_byte _ _ _ _ hN hover hfit hlim] at h
  subst h
  rw [hunit]
  refine ⟨by rw [Nat.mul_one], Nat.mod_one _, Nat.div_one _⟩

/-- The one-byte truncation at limit 10, three one-byte samples received, a
packet of fifteen more: the data hook is handed 7 bytes. -/
theorem logic_truncated_to_budget_witness :
    Effect.call_data (List.replicate 15 3) 7 ∈
      (datafeed_in (env_stdout fmt_data 10) sdi_abc
        (run (env_stdout fmt_data 10) sdi_abc (State.initial Nat)
          [.header, .meta_logic ⟨3, 1000⟩, logic_bytes 3]).state (logic_bytes 15)).effects ∧
    (7 = 10 * 1 - 3 ∧ 7 % 1 = 0 ∧ 7 / 1 = 10 - 3) :=
  ⟨by decide,
   logic_truncated_to_budget (env_stdout fmt_data 10) sdi_abc
    (run (env_stdout fmt_data 10) sdi_abc (State.initial Nat)
      [.header, .meta_logic ⟨3, 1000⟩, logic_bytes 3]).state 1 ⟨15, 1, List.replicate 15 5⟩
    (List.replicate 15 3) 15 (by decide) (by decide) (by decide) (Or.inl rfl) (by decide)
    (by decide) rfl (by decide) (by decide) (by decide)
    (.call_data (List.replicate 15 3) 7) (by decide) 7 rfl⟩

/-- C3. The code does not cut the buffer to the sample limit as the claim and
the comment of lines 682-686 have it: lines 687-689 multiply the limit by the
source sample size, where the buffer is packed in UnitSize-byte samples, and
subtract a count of samples from that count of bytes.  Limit 10, UnitSize 1
(two of three probes enabled), nothing received yet.  A packet of 21 two-byte
samples is over the limit and is truncated, but the data hook is handed 20
bytes, `limit_samples` times the source sample size, where
`limit_samples * unitsize - received_samples` is 10.  With three one-byte
samples received before, a packet of 20 two-byte samples is handed on with
length 17, where `limit_samples * unitsize - received_samples` is 7: seventeen
packed samples go on although seven are left of the limit. -/
theorem logic_truncation_uses_source_size :
    (run (env_stdout fmt_data 10) sdi_abc (State.initial Nat)
      [.header, .meta_logic ⟨3, 1000⟩]).state.unitsize = 1 ∧
    (run (env_stdout fmt_data 10) sdi_abc (State.initial Nat)
      [.header, .meta_logic ⟨3, 1000⟩]).state.received_samples = 0 ∧
    ((datafeed_in (env_stdout fmt_data 10) sdi_abc
      (run (env_stdout fmt_data 10) sdi_abc (State.initial Nat)
        [.header, .meta_logic ⟨3, 1000⟩]).state
      (.logic ⟨42, 2, List.replicate 42 5⟩)).effects.filterMap Effect.sample_len) = [20] ∧
    ((datafeed_in (env_stdout fmt_data 10) sdi_abc
      (run (env_stdout fmt_data 10) sdi_abc (State.initial Nat)
        [.header, .meta_logic ⟨3, 1000⟩, logic_bytes 3]).state
      (.logic ⟨40, 2, List.replicate 40 5⟩)).effects.filterMap Effect.sample_len) = [17] := by
  decide

/-! ## The stream Header, MetaLogic, Logic under a sample limit -/

/-- With a live module every packet goes through the switch and then the generic
per-packet hook. -/
theorem datafeed_in_alive {σ : Type} (env : Env σ) (sdi : sr_dev_inst) (s : State σ)
    (m : σ) (packet : sr_datafeed_packet) (ho : s.o = some m) :
    datafeed_in env sdi s packet =
      match (datafeed_in_switch env sdi s (some m) packet).status with
      | .returned =>
        ⟨(datafeed_in_recv env (datafeed_in_switch env sdi s (some m) packet).state packet).1,
          (datafeed_in_switch env sdi s (some m) packet).effects ++
            (datafeed_in_recv env (datafeed_in_switch env sdi s (some m) packet).state packet).2,
          .returned⟩
      | st => ⟨(datafeed_in_switch env sdi s (some m) packet).state,
          (datafeed_in_switch env sdi s (some m) packet).effects, st⟩ := by
  simp [datafeed_in, ho]

/-- The MetaLogic case touches neither the module nor the sample counter. -/
theorem datafeed_in_meta_logic_keeps {σ : Type} (env : Env σ) (sdi : sr_dev_inst)
    (s : State σ) (ml : sr_datafeed_meta_logic) :
    (datafeed_in_meta_logic env sdi s ml).state.o = s.o ∧
    (datafeed_in_meta_logic env sdi s ml).state.received_samples = s.received_samples := by
  unfold datafeed_in_meta_logic
  split
  · exact ⟨rfl, rfl⟩
  · split
    · exact ⟨rfl, rfl⟩
    · dsimp only
      split <;> exact ⟨rfl, rfl⟩

/-- A lookup succeeds exactly when some entry's key matches. -/
theorem g_hash_table_lookup_extended_isSome (table : GHashTable) (key : String) :
    (g_hash_table_lookup_extended table key).isSome = true ↔
      ∃ entry ∈ table.entries, table.key_equal entry.1 key = true := by
  unfold g_hash_table_lookup_extended
  rw [← List.find?_isSome]
  cases List.find? (fun e => table.key_equal e.1 key) table.entries <;> simp

/-- After an insert the key that was inserted maps to the inserted value,
provided the table takes the key for equal to itself. -/
theorem g_hash_table_lookup_insert (table : GHashTable) (key : String) (value : Int)
    (hrefl : table.key_equal key key = true) :
    g_hash_table_lookup_extended (g_hash_table_insert table key value) key = some value := by
  unfold g_hash_table_lookup_extended g_hash_table_insert
  split
  · rename_i hany
    dsimp only
    generalize table.entries = l at hany
    induction l with
    | nil => simp at hany
    | cons e rest ih =>
      by_cases he : table.key_equal e.1 key = true
      · simp [List.find?, he]
      · have hrest : rest.any (fun e => table.key_equal e.1 key) = true := by
          simpa [he] using hany
        simp only [List.map_cons, he, if_false, Bool.false_eq_true]
        rw [List.find?_cons_of_neg _ (by simpa using he)]
        exact ih hrest
  · rename_i hany
    dsimp only
    have hnone : ∀ e ∈ table.entries, ¬ table.key_equal e.1 key = true := by
      intro e he hk
      exact hany (List.any_eq_true.2 ⟨e, he, hk⟩)
    rw [List.find?_append, List.find?_eq_none.2 (by simpa using hnone)]
    simp [List.find?, hrefl]

/-- C4 (amended). `show_pd_annotations` prints an event exactly when the event's
instance id is a key of the visibility table and the event's annotation format
index equals the value stored under it; it prints nothing while the table does
not exist.  An instance inserted with no index is stored with the NULL
pointer, which reads back as index 0: its events are printed exactly when
their format index is 0, not for every format index. -/
theorem show_pd_annotations_emits_iff (opt_loglevel : Int) (table : GHashTable)
    (pdata : srd_proto_data) :
    ((show_pd_annotations opt_loglevel (some table) pdata).isSome = true ↔
      ∃ ann_format, g_hash_table_lookup_extended table pdata.inst_id = some ann_format ∧
        pdata.ann_format = ann_format) ∧
    ((g_hash_table_lookup_extended table pdata.inst_id).isSome = true ↔
      ∃ entry ∈ table.entries, table.key_equal entry.1 pdata.inst_id = true) ∧
    show_pd_annotations opt_loglevel none pdata = none ∧
    (table.key_equal pdata.inst_id pdata.inst_id = true →
      ((show_pd_annotations opt_loglevel
          (some (g_hash_table_insert table pdata.inst_id 0)) pdata).isSome = true ↔
        pdata.ann_format = 0)) := by
  have key : ∀ t : GHashTable,
      ((show_pd_annotations opt_loglevel (some t) pdata).isSome = true ↔
        ∃ ann_format, g_hash_table_lookup_extended t pdata.inst_id = some ann_format ∧
          pdata.ann_format = ann_format) := by
    intro t
    simp only [show_pd_annotations]
    cases hl : g_hash_table_lookup_extended t pdata.inst_id with
    | none => simp
    | some v =>
      by_cases hv : pdata.ann_format = v
      · simp [hv]
      · simp only [ne_eq, hv, not_false_eq_true, if_true, Option.isSome_none,
          Bool.false_eq_true, Option.some.injEq, false_iff, not_exists, not_and]
        intro w hw hpw
        exact hv (hpw.trans hw.symm)
  refine ⟨key table, g_hash_table_lookup_extended_isSome table _, rfl, ?_⟩
  intro hrefl
  rw [key, g_hash_table_lookup_insert table _ 0 hrefl]
  constructor
  · rintro ⟨v, hv, hp⟩
    injection hv with hv
    rw [hp, ← hv]
  · intro hp
    exact ⟨0, rfl, hp⟩

/-- C4 as stated fails.  The decoder "spi" registered with no annotation list is
a key of the visibility table, stored with no index (the value 0); its event
with annotation format index 1 is not printed, while the same event with
format index 0 is. -/
theorem unindexed_instance_shows_only_format_zero :
    ((register_pds pd_env_plain ⟨none, []⟩ "spi").2.pd_ann_visible.map
      (fun table => table.entries)) = some [("spi", 0)] ∧
    show_pd_annotations 2 (register_pds pd_env_plain ⟨none, []⟩ "spi").2.pd_ann_visible
      ⟨"spi", "spi", 1, 0, 7, ["A5"]⟩ = none ∧
    show_pd_annotations 2 (register_pds pd_env_plain ⟨none, []⟩ "spi").2.pd_ann_visible
      ⟨"spi", "spi", 0, 0, 7, ["A5"]⟩ = some "spi: \"A5\" \n" := by
  decide

/-! ## Probe selection -/

/-- The selection loop keeps the number of probes. -/
theorem select_probes_loop_length (selected : List Nat) (probes : List sr_probe) :
    ∀ pos, (select_probes_loop selected pos probes).length = probes.length := by
  induction probes with
  | nil => intro pos; rfl
  | cons probe rest ih => intro pos; simp [select_probes_loop, ih]

/-- After the selection loop, the probe at list position `i` is the old probe
with `enabled` set to whether its position is among the selected ones. -/
theorem select_probes_loop_get (selected : List Nat) (probes : List sr_probe) :
    ∀ pos i : Nat, (select_probes_loop selected pos probes)[i]? =
      (probes[i]?).map
        (fun probe : sr_probe => { probe with enabled := decide (pos + i ∈ selected) }) := by
  induction probes with
  | nil => intro pos i; simp [select_probes_loop]
  | cons probe rest ih =>
    intro pos i
    cases i with
    | zero => simp [select_probes_loop]
    | succ j =>
      simp only [select_probes_loop, List.getElem?_cons_succ, ih]
      have : pos + 1 + j = pos + (j + 1) := by omega
      rw [this]

/-- The number of probes the selection loop enables: the positions of the list
that are among the selected ones. -/
theorem select_probes_loop_count (selected : List Nat) (probes : List sr_probe) :
    ∀ pos, ((select_probes_loop selected pos probes).filter (fun probe => probe.enabled)).length =
      ((List.range' pos probes.length).filter (fun i => decide (i ∈ selected))).length := by
  induction probes with
  | nil => intro pos; rfl
  | cons probe rest ih =>
    intro pos
    simp only [select_probes_loop, List.length_cons, List.range'_succ, List.filter_cons]
    by_cases h : pos ∈ selected
    · simp [h, ih]
    · simp [h, ih]

/-- The positions below `n` that occur in a list of positions all below `n` are as
many as the distinct entries of that list. -/
theorem count_selected_positions (selected : List Nat) (n : Nat)
    (hvalid : ∀ pos ∈ selected, pos < n) :
    ((List.range n).filter (fun i => decide (i ∈ selected))).length = selected.dedup.length := by
  apply List.Perm.length_eq
  rw [List.perm_ext_iff_of_nodup ((List.nodup_range n).filter _) (List.nodup_dedup selected)]
  intro a
  simp only [List.mem_filter, List.mem_range, decide_eq_true_eq, List.mem_dedup]
  constructor
  · exact fun h => h.2
  · exact fun h => ⟨hvalid a h, h⟩

/-- C10. For a selection expression the parser accepts (a non-NULL list, every
entry a probe of this device), `select_probes` returns SR_OK, keeps the
probe list's length, leaves the probe at each position enabled exactly when
that position is in the parsed selection, and so the number of enabled probes
is the number of distinct probes the selection refers to. -/
theorem select_probes_enables_selection (sdi : sr_dev_inst) (probestring : String)
    (parse_probestring : sr_dev_inst → String → List Nat)
    (hacc : parse_probestring sdi probestring ≠ [])
    (hvalid : ∀ pos ∈ parse_probestring sdi probestring, pos < sdi.probes.length) :
    (select_probes (some probestring) parse_probestring sdi).1 = SR_OK ∧
    (select_probes (some probestring) parse_probestring sdi).2.probes.length =
      sdi.probes.length ∧
    (∀ pos probe,
      (select_probes (some probestring) parse_probestring sdi).2.probes[pos]? = some probe →
        (probe.enabled = true ↔ pos ∈ parse_probestring sdi probestring)) ∧
    ((select_probes (some probestring) parse_probestring sdi).2.probes.filter
        (fun probe => probe.enabled)).length =
      (parse_probestring sdi probestring).dedup.length := by
  have hne : (parse_probestring sdi probestring).isEmpty = false := by
    cases h : parse_probestring sdi probestring with
    | nil => exact absurd h hacc
    | cons a l => rfl
  simp only [select_probes, hne, Bool.false_eq_true, if_false]
  refine ⟨trivial, select_probes_loop_length _ _ 0, ?_, ?_⟩
  · intro pos probe hp
    rw [select_probes_loop_get] at hp
    cases hq : sdi.probes[pos]? with
    | none => simp [hq] at hp
    | some q =>
      simp only [hq, Option.map_some', Option.some.injEq, Nat.zero_add] at hp
      subst hp
      simp
  · rw [select_probes_loop_count, ← List.range_eq_range']
    exact count_selected_positions _ _ hvalid

/-- Witness of C10: probes A, B, C and the selection "C,A,C": A and C end up
enabled, two probes for three references. -/
theorem select_probes_enables_selection_witness :
    spec_parse_probestring sdi_abc "C,A,C" = [2, 0, 2] ∧
    ((select_probes (some "C,A,C") spec_parse_probestring sdi_abc).2.probes.filter
        (fun probe => probe.enabled)).length =
      (spec_parse_probestring sdi_abc "C,A,C").dedup.length :=
  ⟨by decide,
   (select_probes_enables_selection sdi_abc "C,A,C" spec_parse_probestring (by decide)
      (by decide)).2.2.2⟩

/-! ## The MetaLogic handler -/

/-- The probe loop, run over positions that all exist and with room in the
array for every enabled probe, appends the enabled positions in list order. -/
theorem enabled_loop_eq (capacity : Nat) (probes : List sr_probe) :
    ∀ k i acc, i + k ≤ probes.length →
      (acc ++ (List.range' i k).filter
        (fun j => ((probes[j]?).map (fun probe => probe.enabled)).getD false)).length ≤
          capacity →
      enabled_loop capacity probes k i acc =
        .ok (acc ++ (List.range' i k).filter
          (fun j => ((probes[j]?).map (fun probe => probe.enabled)).getD false)) := by
  intro k
  induction k with
  | zero => intro i acc _ _; simp [enabled_loop]
  | succ k ih =>
    intro i acc h hcap
    have hi : i < probes.length := by omega
    rw [enabled_loop.eq_def]
    simp only [List.getElem?_eq_getElem hi]
    rw [List.range'_succ, List.filter_cons] at hcap ⊢
    simp only [List.getElem?_eq_getElem hi, Option.map_some', Option.getD_some] at hcap ⊢
    cases he : probes[i].enabled with
    | false =>
      simp only [he, Bool.false_eq_true, if_false] at hcap ⊢
      exact ih (i + 1) acc (by omega) hcap
    | true =>
      simp only [he, if_true, List.length_append, List.length_cons] at hcap ⊢
      have hroom : ¬ capacity ≤ acc.length := by omega
      rw [if_neg hroom, ih (i + 1) (acc ++ [i]) (by omega)
        (by simp only [List.length_append, List.length_cons, List.length_nil]; omega)]
      simp

/-- The lane list in terms of the probe list: the indices of the enabled probes
among the first `n`, in list order. -/
theorem enabled_lanes_eq (probes : List sr_probe) :
    ∀ n, n ≤ probes.length →
      ((List.range n).filter
          (fun j => ((probes[j]?).map (fun probe => probe.enabled)).getD false)).map
        (probe_index probes) =
      ((probes.take n).filter (fun probe => probe.enabled)).map (fun probe => probe.index) ∧
      ((List.range n).filter
          (fun j => ((probes[j]?).map (fun probe => probe.enabled)).getD false)).length =
      ((probes.take n).filter (fun probe => probe.enabled)).length := by
  intro n
  induction n with
  | zero => intro _; simp
  | succ n ih =>
    intro h
    have hn : n < probes.length := by omega
    obtain ⟨ih1, ih2⟩ := ih (by omega)
    rw [List.range_succ, List.filter_append, List.map_append, List.length_append, ih1, ih2,
      List.take_succ, List.filter_append, List.map_append, List.length_append,
      List.getElem?_eq_getElem hn]
    simp only [List.filter_cons, List.filter_nil, List.getElem?_eq_getElem hn, Option.map_some',
      Option.getD_some, Option.toList_some]
    cases he : probes[n].enabled <;> simp [probe_index, List.getElem?_eq_getElem hn]

/-- The generic per-packet hook leaves the lane list and the unit size alone. -/
theorem datafeed_in_recv_lanes {σ : Type} (env : Env σ) (s : State σ)
    (packet : sr_datafeed_packet) :
    (datafeed_in_recv env s packet).1.logic_probelist = s.logic_probelist ∧
    (datafeed_in_recv env s packet).1.unitsize = s.unitsize := by
  unfold datafeed_in_recv
  split <;> exact ⟨rfl, rfl⟩

/-- The MetaLogic case, when the declared probe count does not exceed the probe
list and the enabled probes and the sentinel fit the array: never a fault, and
the lane list and unit size it leaves. -/
theorem datafeed_in_meta_logic_lanes {σ : Type} (env : Env σ) (sdi : sr_dev_inst)
    (s : State σ) (ml : sr_datafeed_meta_logic) (hn : ml.num_probes ≤ sdi.probes.length)
    (hcap : ((sdi.probes.take ml.num_probes).filter (fun probe => probe.enabled)).length <
      env.SR_MAX_NUM_PROBES) :
    (datafeed_in_meta_logic env sdi s ml).state.logic_probelist =
      ((sdi.probes.take ml.num_probes).filter (fun probe => probe.enabled)).map
        (fun probe => probe.index) ++ [-1] ∧
    (datafeed_in_meta_logic env sdi s ml).state.unitsize =
      (((sdi.probes.take ml.num_probes).filter (fun probe => probe.enabled)).length + 7) / 8 ∧
    ((datafeed_in_meta_logic env sdi s ml).status = .returned ∨
      (datafeed_in_meta_logic env sdi s ml).status = .exited 1) := by
  obtain ⟨h1, h2⟩ := enabled_lanes_eq sdi.probes ml.num_probes hn
  unfold datafeed_in_meta_logic
  rw [enabled_loop_eq env.SR_MAX_NUM_PROBES sdi.probes ml.num_probes 0 [] (by omega)
    (by rw [← List.range_eq_range', List.nil_append, h2]; omega), ← List.range_eq_range']
  simp only [List.nil_append]
  rw [h1, h2, if_neg (by omega)]
  split
  · exact ⟨rfl, rfl, Or.inr rfl⟩
  · exact ⟨rfl, rfl, Or.inl rfl⟩

/-- When the enabled probes among the first `num_probes` fill the array or
more, the MetaLogic case stores past the end of `logic_probelist`. -/
theorem datafeed_in_meta_logic_overflow {σ : Type} (env : Env σ) (sdi : sr_dev_inst)
    (s : State σ) (ml : sr_datafeed_meta_logic) (hn : ml.num_probes ≤ sdi.probes.length)
    (hcap : env.SR_MAX_NUM_PROBES ≤
      ((sdi.probes.take ml.num_probes).filter (fun probe => probe.enabled)).length) :
    (datafeed_in_meta_logic env sdi s ml).status = .fault .probelist_overflow := by
  obtain ⟨_, h2⟩ := enabled_lanes_eq sdi.probes ml.num_probes hn
  have key : ∀ k i acc, i + k ≤ sdi.probes.length →
      (∃ l, enabled_loop env.SR_MAX_NUM_PROBES sdi.probes k i acc = .ok l ∧
        l = acc ++ (List.range' i k).filter
          (fun j => ((sdi.probes[j]?).map (fun probe => probe.enabled)).getD false)) ∨
      enabled_loop env.SR_MAX_NUM_PROBES sdi.probes k i acc = .error .probelist_overflow := by
    intro k
    induction k with
    | zero => intro i acc _; left; exact ⟨acc, by simp [enabled_loop]⟩
    | succ k ih =>
      intro i acc h
      have hi : i < sdi.probes.length := by omega
      rw [enabled_loop.eq_def]
      simp only [List.getElem?_eq_getElem hi]
      rw [List.range'_succ, List.filter_cons]
      simp only [List.getElem?_eq_getElem hi, Option.map_some', Option.getD_some]
      cases he : sdi.probes[i].enabled with
      | false =>
        simp only [Bool.false_eq_true, if_false]
        exact ih (i + 1) acc (by omega)
      | true =>
        simp only [if_true]
        by_cases hroom : env.SR_MAX_NUM_PROBES ≤ acc.length
        · right; rw [if_pos hroom]
        · rw [if_neg hroom]
          rcases ih (i + 1) (acc ++ [i]) (by omega) with ⟨l, hl, hl2⟩ | herr
          · left; exact ⟨l, hl, by rw [hl2]; simp⟩
          · right; exact herr
  unfold datafeed_in_meta_logic
  rcases key ml.num_probes 0 [] (by omega) with ⟨l, hl, hl2⟩ | herr
  · rw [hl]
    have hlen : env.SR_MAX_NUM_PROBES ≤ l.length := by
      rw [hl2, ← List.range_eq_range', List.nil_append, h2]
      exact hcap
    simp only [if_pos hlen]
  · rw [herr]

/-- With a live module, a MetaLogic packet whose probe count does not exceed the
probe list, and fewer enabled probes among the first `num_probes` than
`logic_probelist` has entries: `datafeed_in` leaves `logic_probelist` holding
the indices of exactly the enabled probes among the first `num_probes`, in probe
list order, followed by the sentinel -1; their number `k` is at most
`num_probes`; and `unitsize` is the least number of bytes with `8 * unitsize ≥ k`,
that is `ceil(k / 8)`.  The call returns or, when the datastore cannot be
created, exits; it does not fault.  With dense indices the lanes are the list
positions of the enabled probes. -/
theorem meta_logic_sets_lanes_and_unitsize {σ : Type} (env : Env σ) (sdi : sr_dev_inst)
    (s : State σ) (m : σ) (ml : sr_datafeed_meta_logic) (ho : s.o = some m)
    (hn : ml.num_probes ≤ sdi.probes.length)
    (hcap : ((sdi.probes.take ml.num_probes).filter (fun probe => probe.enabled)).length <
      env.SR_MAX_NUM_PROBES)
    (hdense : ∀ i (h : i < sdi.probes.length), (sdi.probes[i]).index = (i : Int)) :
    (datafeed_in env sdi s (.meta_logic ml)).state.logic_probelist =
      ((sdi.probes.take ml.num_probes).filter (fun probe => probe.enabled)).map
        (fun probe => probe.index) ++ [-1] ∧
    ((sdi.probes.take ml.num_probes).filter (fun probe => probe.enabled)).length ≤
      ml.num_probes ∧
    (datafeed_in env sdi s (.meta_logic ml)).state.unitsize =
      (((sdi.probes.take ml.num_probes).filter (fun probe => probe.enabled)).length + 7) / 8 ∧
    ((sdi.probes.take ml.num_probes).filter (fun probe => probe.enabled)).length ≤
      8 * (datafeed_in env sdi s (.meta_logic ml)).state.unitsize ∧
    8 * (datafeed_in env sdi s (.meta_logic ml)).state.unitsize <
      ((sdi.probes.take ml.num_probes).filter (fun probe => probe.enabled)).length + 8 ∧
    ((datafeed_in env sdi s (.meta_logic ml)).status = .returned ∨
      (datafeed_in env sdi s (.meta_logic ml)).status = .exited 1) ∧
    ∀ lane ∈ ((sdi.probes.take ml.num_probes).filter (fun probe => probe.enabled)).map
        (fun probe => probe.index),
      ∃ i, ∃ h : i < sdi.probes.length, i < ml.num_probes ∧ lane = (i : Int) ∧
        (sdi.probes[i]).enabled = true := by
  obtain ⟨h1, h2, h3⟩ := datafeed_in_meta_logic_lanes env sdi s ml hn hcap
  have hk : ((sdi.probes.take ml.num_probes).filter (fun probe => probe.enabled)).length ≤
      ml.num_probes :=
    (List.length_filter_le _ _).trans (by rw [List.length_take]; exact Nat.min_le_left _ _)
  have hstate : (datafeed_in env sdi s (.meta_logic ml)).state.logic_probelist =
        (datafeed_in_meta_logic env sdi s ml).state.logic_probelist ∧
      (datafeed_in env sdi s (.meta_logic ml)).state.unitsize =
        (datafeed_in_meta_logic env sdi s ml).state.unitsize ∧
      (datafeed_in env sdi s (.meta_logic ml)).status =
        (datafeed_in_meta_logic env sdi s ml).status := by
    rw [datafeed_in_alive env sdi s m _ ho]
    simp only [datafeed_in_switch]
    cases hst : (datafeed_in_meta_logic env sdi s ml).status <;>
      simp [(datafeed_in_recv_lanes env _ _).1, (datafeed_in_recv_lanes env _ _).2]
  obtain ⟨e1, e2, e3⟩ := hstate
  rw [e1, e2, e3]
  refine ⟨h1, hk, h2, ?_, ?_, h3, ?_⟩
  · rw [h2]; omega
  · rw [h2]; omega
  · intro lane hl
    simp only [List.mem_map, List.mem_filter] at hl
    obtain ⟨probe, ⟨hmem, hen⟩, rfl⟩ := hl
    obtain ⟨i, hi, rfl⟩ := List.getElem_of_mem hmem
    rw [List.length_take] at hi
    have hi1 : i < ml.num_probes := (Nat.lt_min.1 hi).1
    have hi2 : i < sdi.probes.length := (Nat.lt_min.1 hi).2
    rw [List.getElem_take] at hen ⊢
    exact ⟨i, hi2, hi1, hdense i hi2, hen⟩

/-- Probes A, B, C with A and C enabled give lanes 0 and 2 and one byte per
sample. -/
theorem meta_logic_sets_lanes_and_unitsize_witness :
    (datafeed_in (env_stdout fmt_data 0) sdi_abc
      (run (env_stdout fmt_data 0) sdi_abc (State.initial Nat) [.header]).state
      (.meta_logic ⟨3, 1000⟩)).state.logic_probelist =
      ((sdi_abc.probes.take 3).filter (fun probe => probe.enabled)).map
        (fun probe => probe.index) ++ [-1] ∧
    ((sdi_abc.probes.take 3).filter (fun probe => probe.enabled)).map
        (fun probe => probe.index) ++ [-1] = [0, 2, -1] :=
  ⟨(meta_logic_sets_lanes_and_unitsize (env_stdout fmt_data 0) sdi_abc
      (run (env_stdout fmt_data 0) sdi_abc (State.initial Nat) [.header]).state 0 ⟨3, 1000⟩
      (by decide) (by decide) (by decide) (by decide)).1, by decide⟩

/-- With a live module and a MetaLogic packet whose probe count does not exceed
the probe list: when the enabled probes among the first `num_probes` are as many
as `logic_probelist` has entries, or more, `datafeed_in` stores past the end of
the array, whatever the indices of the probes. -/
theorem meta_logic_full_array_overflows {σ : Type} (env : Env σ) (sdi : sr_dev_inst)
    (s : State σ) (m : σ) (ml : sr_datafeed_meta_logic) (ho : s.o = some m)
    (hn : ml.num_probes ≤ sdi.probes.length)
    (hcap : env.SR_MAX_NUM_PROBES ≤
      ((sdi.probes.take ml.num_probes).filter (fun probe => probe.enabled)).length) :
    (datafeed_in env sdi s (.meta_logic ml)).status = .fault .probelist_overflow := by
  rw [datafeed_in_alive env sdi s m _ ho]
  simp only [datafeed_in_switch, datafeed_in_meta_logic_overflow env sdi s ml hn hcap]

set_option maxRecDepth 100000 in
/-- C11. The code does not set the lane list for every ProbeSet: the loop of
lines 630-634 and the sentinel store of line 635 write into the
`SR_MAX_NUM_PROBES` entries of `logic_probelist` without a bound check.  A
device with 64 probes, dense indices, all enabled, and a MetaLogic packet for
64 probes: the loop fills the 64 entries and the sentinel is stored past the
end of the array.  With 63 probes the handler returns, the list holds the 63
indices and the sentinel, and `unitsize` is 8. -/
theorem meta_logic_overflows_probelist :
    (env_stdout fmt_data 0).SR_MAX_NUM_PROBES = 64 ∧
    (sdi_full 64).probes.length = 64 ∧
    (∀ probe ∈ (sdi_full 64).probes, probe.enabled = true) ∧
    (sdi_full 64).probes.map (fun probe => probe.index) =
      (List.range 64).map (fun i => (i : Int)) ∧
    (run (env_stdout fmt_data 0) (sdi_full 64) (State.initial Nat) [.header]).state.o =
      some 0 ∧
    (datafeed_in (env_stdout fmt_data 0) (sdi_full 64)
      (run (env_stdout fmt_data 0) (sdi_full 64) (State.initial Nat) [.header]).state
      (.meta_logic ⟨64, 1000⟩)).status = .fault .probelist_overflow ∧
    (datafeed_in (env_stdout fmt_data 0) (sdi_full 63)
      (run (env_stdout fmt_data 0) (sdi_full 63) (State.initial Nat) [.header]).state
      (.meta_logic ⟨63, 1000⟩)).status = .returned ∧
    (datafeed_in (env_stdout fmt_data 0) (sdi_full 63)
      (run (env_stdout fmt_data 0) (sdi_full 63) (State.initial Nat) [.header]).state
      (.meta_logic ⟨63, 1000⟩)).state.logic_probelist =
        (List.range 63).map (fun i => (i : Int)) ++ [-1] ∧
    (datafeed_in (env_stdout fmt_data 0) (sdi_full 63)
      (run (env_stdout fmt_data 0) (sdi_full 63) (State.initial Nat) [.header]).state
      (.meta_logic ⟨63, 1000⟩)).state.unitsize = 8 := by
  decide

/-! ## Probe selection without a selection expression -/

/-- C12 (amended). Without a selection expression `select_probes` returns SR_OK
and leaves the device as it is: every probe keeps the `enabled` flag it had, a
disabled probe stays disabled. -/
theorem select_probes_absent_keeps_flags
    (parse_probestring : sr_dev_inst → String → List Nat) (sdi : sr_dev_inst) :
    select_probes none parse_probestring sdi = (SR_OK, sdi) := by
  rfl

/-- C12 as stated fails: on the device A, B, C with B disabled and no selection
expression, B is still disabled after `select_probes`. -/
theorem select_probes_absent_leaves_disabled :
    (select_probes none spec_parse_probestring sdi_abc).1 = SR_OK ∧
    (select_probes none spec_parse_probestring sdi_abc).2.probes.map
      (fun probe => probe.enabled) = [true, false, true] := by
  decide

/-! ## The generic per-packet hook -/

/-- Writing a hook's buffer is no offer to the generic per-packet hook. -/
theorem write_out_no_recv (outfile : FileHandle) (out : Option (List Nat)) :
    (write_out outfile out).countP Effect.to_recv = 0 := by
  cases out <;> simp [write_out, List.countP_cons, Effect.to_recv]

/-- Choosing the destination is no offer to the generic per-packet hook. -/
theorem open_destination_no_recv {σ : Type} (env : Env σ) (s : State σ) (unitsize : Nat) :
    (open_destination env s unitsize).effects.countP Effect.to_recv = 0 := by
  unfold open_destination
  split
  · rfl
  · split
    · split <;> simp [List.countP_cons, Effect.to_recv]
    · simp [List.countP_cons, Effect.to_recv]

/-- Routing a logic buffer is no offer to the generic per-packet hook. -/
theorem route_logic_no_recv {σ : Type} (env : Env σ) (s : State σ) (m : σ)
    (sample_size : Nat) (filter_out : List Nat) (len : Nat) :
    (route_logic env s m sample_size filter_out len).2.countP Effect.to_recv = 0 := by
  unfold route_logic
  have hput : (if s.singleds.isSome = true then
      [Effect.sr_datastore_put filter_out len sample_size s.logic_probelist] else []).countP
        Effect.to_recv = 0 := by
    split <;> simp [List.countP_cons, Effect.to_recv]
  have hu : (unset_output_buf env s).countP Effect.to_recv = 0 := by
    unfold unset_output_buf
    split <;> simp [List.countP_cons, Effect.to_recv]
  dsimp only
  split
  · exact hput
  · split
    · split <;> simp [List.countP_append, hput, List.countP_cons, Effect.to_recv]
    · split
      · simp [List.countP_append, hput, hu]
      · split
        · simp [List.countP_append, hput, List.countP_cons, Effect.to_recv, write_out_no_recv]
        · simp [List.countP_append, hput, hu]

/-- The switch itself never offers a packet to the generic per-packet hook. -/
theorem datafeed_in_switch_no_recv {σ : Type} (env : Env σ) (sdi : sr_dev_inst)
    (s : State σ) (mo : Option σ) (packet : sr_datafeed_packet) :
    (datafeed_in_switch env sdi s mo packet).effects.countP Effect.to_recv = 0 := by
  cases packet with
  | header =>
    simp only [datafeed_in_switch, datafeed_in_header]
    split
    · rfl
    · split
      · rfl
      · split <;> simp [List.countP_cons, Effect.to_recv]
  | end_ =>
    simp only [datafeed_in_switch, datafeed_in_end]
    split
    · rfl
    · simp only [List.countP_append]
      have h1 : ∀ l : List Effect, (∀ e ∈ l, e.to_recv = false) → l.countP Effect.to_recv = 0 := by
        intro l hl
        rw [List.countP_eq_zero]
        intro e he
        simp [hl e he]
      rw [h1, h1, h1, h1, h1]
      · intro e he
        split at he
        · simp at he
        · simp only [List.mem_singleton] at he
          subst he
          rfl
      · intro e he
        split at he
        · simp only [List.mem_singleton] at he
          subst he
          rfl
        · simp at he
      · intro e he
        split at he
        · simp only [List.mem_singleton] at he
          subst he
          rfl
        · simp at he
      · intro e he
        split at he
        · simp only [List.mem_singleton] at he
          subst he
          rfl
        · simp at he
      · intro e he
        split at he
        · simp at he
        · simp only [List.mem_cons] at he
          rcases he with rfl | he
          · rfl
          · split at he
            · simp at he
            · split at he
              · simp at he
              · simp only [List.mem_singleton] at he
                subst he
                rfl
  | trigger =>
    cases mo with
    | none => rfl
    | some m =>
      simp only [datafeed_in_switch, datafeed_in_trigger]
      split <;> simp [List.countP_cons, Effect.to_recv]
  | meta_logic ml =>
    simp only [datafeed_in_switch, datafeed_in_meta_logic]
    split
    · rfl
    · split
      · rfl
      · split
        · exact open_destination_no_recv env _ _
        · rw [List.countP_append, open_destination_no_recv]
          split <;> simp [List.countP_cons, Effect.to_recv]
  | logic l =>
    cases mo with
    | none => rfl
    | some m =>
      simp only [datafeed_in_switch, datafeed_in_logic]
      split
      · rfl
      · split
        · rfl
        · split
          · rfl
          · split
            · rfl
            · split
              · rfl
              · split
                · exact route_logic_no_recv env s m _ _ _
                · split <;> exact route_logic_no_recv env s m _ _ _
  | meta_analog ma =>
    simp only [datafeed_in_switch, datafeed_in_meta_analog]
    split
    · rfl
    · split <;> exact open_destination_no_recv env _ _
  | analog a =>
    cases mo with
    | none => rfl
    | some m =>
      simp only [datafeed_in_switch, datafeed_in_analog]
      split
      · rfl
      · split
        · rfl
        · dsimp only
          split
          · rfl
          · split
            · simp [List.countP_cons, Effect.to_recv, write_out_no_recv]
            · rfl
  | frame_begin =>
    cases mo with
    | none => rfl
    | some m =>
      simp only [datafeed_in_switch, datafeed_in_frame]
      split
      · rfl
      · simp [List.countP_cons, Effect.to_recv, write_out_no_recv]
  | frame_end =>
    cases mo with
    | none => rfl
    | some m =>
      simp only [datafeed_in_switch, datafeed_in_frame]
      split
      · rfl
      · simp [List.countP_cons, Effect.to_recv, write_out_no_recv]
  | other c =>
    rfl

/-- Every case of the switch but the End one, when it returns, leaves a module
in `o`. -/
theorem datafeed_in_switch_alive {σ : Type} (env : Env σ) (sdi : sr_dev_inst)
    (s : State σ) (m : σ) (packet : sr_datafeed_packet) (ho : s.o = some m)
    (hp : packet ≠ .end_)
    (hst : (datafeed_in_switch env sdi s (some m) packet).status = .returned) :
    ∃ m1, (datafeed_in_switch env sdi s (some m) packet).state.o = some m1 := by
  cases packet with
  | header =>
    simp only [datafeed_in_switch, datafeed_in_header] at hst ⊢
    split
    · rename_i hg
      simp [hg] at hst
    · split
      · exact ⟨_, rfl⟩
      · split <;> exact ⟨_, rfl⟩
  | end_ => exact absurd rfl hp
  | trigger =>
    simp only [datafeed_in_switch, datafeed_in_trigger]
    split
    · exact ⟨m, ho⟩
    · exact ⟨_, rfl⟩
  | meta_logic ml =>
    simp only [datafeed_in_switch]
    exact ⟨m, (datafeed_in_meta_logic_keeps env sdi s ml).1.trans ho⟩
  | logic l =>
    simp only [datafeed_in_switch, datafeed_in_logic]
    split
    · exact ⟨m, ho⟩
    · split
      · exact ⟨m, ho⟩
      · split
        · exact ⟨m, ho⟩
        · split
          · exact ⟨m, ho⟩
          · split
            · exact ⟨m, ho⟩
            · split
              · exact ⟨_, rfl⟩
              · split <;> exact ⟨_, rfl⟩
  | meta_analog ma =>
    simp only [datafeed_in_switch, datafeed_in_meta_analog]
    split
    · exact ⟨m, ho⟩
    · split <;> exact ⟨m, ho⟩
  | analog a =>
    simp only [datafeed_in_switch, datafeed_in_analog]
    split
    · exact ⟨m, ho⟩
    · split
      · exact ⟨m, ho⟩
      · exact ⟨_, rfl⟩
  | frame_begin =>
    simp only [datafeed_in_switch, datafeed_in_frame]
    split
    · exact ⟨m, ho⟩
    · exact ⟨_, rfl⟩
  | frame_end =>
    simp only [datafeed_in_switch, datafeed_in_frame]
    split
    · exact ⟨m, ho⟩
    · exact ⟨_, rfl⟩
  | other c => exact ⟨m, ho⟩

/-- C16 (amended). A module with a generic per-packet hook is live at the start
of the call.  A packet other than End whose type-specific handling returns, a
packet held back by a gate included, is offered to the hook exactly once, after
the effects of the type-specific handling and on the module that handling
left.  An End packet is never offered, since the module is released before
the hook is reached; nor is a packet whose type-specific handling exits or
faults. -/
theorem packet_offered_to_recv_once {σ : Type} (env : Env σ) (sdi : sr_dev_inst)
    (s : State σ) (m : σ) (recv : σ → sr_datafeed_packet → σ × Option (List Nat))
    (packet : sr_datafeed_packet) (ho : s.o = some m)
    (hr : env.output_format.recv = some recv) :
    (packet = .end_ → (datafeed_in env sdi s packet).effects.countP Effect.to_recv = 0) ∧
    ((datafeed_in_switch env sdi s (some m) packet).status ≠ .returned →
      (datafeed_in env sdi s packet).effects.countP Effect.to_recv = 0) ∧
    (packet ≠ .end_ → (datafeed_in_switch env sdi s (some m) packet).status = .returned →
      (datafeed_in env sdi s packet).effects.countP Effect.to_recv = 1 ∧
      ∃ m1, (datafeed_in_switch env sdi s (some m) packet).state.o = some m1 ∧
        (datafeed_in env sdi s packet).effects =
          (datafeed_in_switch env sdi s (some m) packet).effects ++
            .call_recv packet.type ::
              (match (recv m1 packet).2 with
               | none => []
               | some out =>
                 if out.length ≠ 0 then
                   [.fwrite (datafeed_in_switch env sdi s (some m) packet).state.outfile out,
                    .fflush (datafeed_in_switch env sdi s (some m) packet).state.outfile]
                 else [])) := by
  have hsw := datafeed_in_switch_no_recv env sdi s (some m) packet
  refine ⟨?_, ?_, ?_⟩
  · intro hp
    subst hp
    rw [datafeed_in_alive env sdi s m _ ho]
    have hend : datafeed_in_switch env sdi s (some m) .end_ = datafeed_in_end env s := rfl
    have hnone : (datafeed_in_end env s).state.o = none := by
      simp [datafeed_in_end, ho]
    have hst : (datafeed_in_end env s).status = .returned := by
      simp [datafeed_in_end, ho]
    rw [hend] at hsw ⊢
    simp only [hst, List.countP_append, hsw, Nat.zero_add]
    simp [datafeed_in_recv, hnone]
  · intro hst
    rw [datafeed_in_alive env sdi s m _ ho]
    cases h : (datafeed_in_switch env sdi s (some m) packet).status with
    | returned => exact absurd h hst
    | exited c => simpa using hsw
    | fault f => simpa using hsw
  · intro hp hst
    obtain ⟨m1, hm1⟩ := datafeed_in_switch_alive env sdi s m packet ho hp hst
    rw [datafeed_in_alive env sdi s m _ ho]
    simp only [hst]
    have hrecv : (datafeed_in_recv env (datafeed_in_switch env sdi s (some m) packet).state
        packet).2 =
        .call_recv packet.type ::
          (match (recv m1 packet).2 with
           | none => []
           | some out =>
             if out.length ≠ 0 then
               [.fwrite (datafeed_in_switch env sdi s (some m) packet).state.outfile out,
                .fflush (datafeed_in_switch env sdi s (some m) packet).state.outfile]
             else []) := by
      simp [datafeed_in_recv, hm1, hr]
    refine ⟨?_, m1, hm1, by rw [hrecv]⟩
    rw [List.countP_append, hsw, hrecv, List.countP_cons]
    cases (recv m1 packet).2 with
    | none => simp [Effect.to_recv]
    | some out =>
      by_cases hl : out.length ≠ 0 <;> simp [hl, Effect.to_recv, List.countP_cons]

/-- Witness of C16 (amended): a logic packet of length zero, held back by the first
gate, is still offered once. -/
theorem packet_offered_to_recv_once_witness :
    (datafeed_in (env_stdout fmt_recv 0) sdi_abc
      (run (env_stdout fmt_recv 0) sdi_abc (State.initial Nat)
        [.header, .meta_logic ⟨3, 1000⟩]).state (logic_bytes 0)).effects.countP
        Effect.to_recv = 1 :=
  ((packet_offered_to_recv_once (env_stdout fmt_recv 0) sdi_abc
    (run (env_stdout fmt_recv 0) sdi_abc (State.initial Nat)
      [.header, .meta_logic ⟨3, 1000⟩]).state 2
    (fun m packet =>
      match packet with
      | .logic _ => (m + 1, some [35])
      | _ => (m + 1, none))
    (logic_bytes 0) (by decide) rfl).2.2 (by decide) (by decide)).1

/-- C16 as stated fails: with a format that declares the generic per-packet hook
and a module live at the start of the call, a logic packet is offered to the
hook, the End packet that follows is not: the call has no effect at all. -/
theorem end_packet_not_offered_to_recv :
    (env_stdout fmt_recv 0).output_format.recv.isSome = true ∧
    (run (env_stdout fmt_recv 0) sdi_abc (State.initial Nat)
      [.header, .meta_logic ⟨3, 1000⟩, logic_bytes 4]).state.o = some 3 ∧
    (datafeed_in (env_stdout fmt_recv 0) sdi_abc
      (run (env_stdout fmt_recv 0) sdi_abc (State.initial Nat)
        [.header, .meta_logic ⟨3, 1000⟩]).state (logic_bytes 4)).effects =
      [.call_recv .SR_DF_LOGIC, .fwrite .stdout [35], .fflush .stdout] ∧
    (datafeed_in (env_stdout fmt_recv 0) sdi_abc
      (run (env_stdout fmt_recv 0) sdi_abc (State.initial Nat)
        [.header, .meta_logic ⟨3, 1000⟩, logic_bytes 4]).state .end_).effects = [] := by
  decide

/-! ## Event packets and the trigger gate -/

/-- C17. The claim holds for frame packets and fails for the Trigger packet: with
a format whose event hook hands back one byte for every event, after Header and
MetaLogic, a FrameBegin and a FrameEnd packet each have the byte written to
standard output and flushed, but for a Trigger packet the hook is called and
the byte it hands back is written nowhere. -/
theorem trigger_event_output_discarded :
    (datafeed_in (env_stdout fmt_event 0) sdi_abc
      (run (env_stdout fmt_event 0) sdi_abc (State.initial Nat)
        [.header, .meta_logic ⟨3, 1000⟩]).state .frame_begin).effects =
      [.call_event .SR_DF_FRAME_BEGIN, .fwrite .stdout [84], .fflush .stdout] ∧
    (datafeed_in (env_stdout fmt_event 0) sdi_abc
      (run (env_stdout fmt_event 0) sdi_abc (State.initial Nat)
        [.header, .meta_logic ⟨3, 1000⟩]).state .frame_end).effects =
      [.call_event .SR_DF_FRAME_END, .fwrite .stdout [84], .fflush .stdout] ∧
    (datafeed_in (env_stdout fmt_event 0) sdi_abc
      (run (env_stdout fmt_event 0) sdi_abc (State.initial Nat)
        [.header, .meta_logic ⟨3, 1000⟩]).state .trigger).effects =
      [.call_event .SR_DF_TRIGGER] ∧
    (datafeed_in (env_stdout fmt_event 0) sdi_abc
      (run (env_stdout fmt_event 0) sdi_abc (State.initial Nat)
        [.header, .meta_logic ⟨3, 1000⟩]).state .trigger).state.triggered = true := by
  decide

/-- C19. The claim fails on the code.  With an output file that `g_fopen` cannot
open, `outfile` is NULL after Header and MetaLogic, and the logic packet that
follows has its converted bytes written to the NULL stream.  With standard
output as destination, a FrameBegin packet that comes before any MetaLogic or
MetaAnalog finds `outfile` still NULL and has the event hook's byte written to
the NULL stream as well. -/
theorem fwrite_targets_null_outfile :
    (run (env_unwritable fmt_data) sdi_abc (State.initial Nat)
      [.header, .meta_logic ⟨3, 1000⟩]).status = .returned ∧
    (run (env_unwritable fmt_data) sdi_abc (State.initial Nat)
      [.header, .meta_logic ⟨3, 1000⟩]).state.outfile = .null ∧
    (datafeed_in (env_unwritable fmt_data) sdi_abc
      (run (env_unwritable fmt_data) sdi_abc (State.initial Nat)
        [.header, .meta_logic ⟨3, 1000⟩]).state (logic_bytes 4)).effects =
      [.call_data [3, 3, 3, 3] 4, .fwrite .null [3, 3, 3, 3], .fflush .null] ∧
    (datafeed_in (env_stdout fmt_event 0) sdi_abc
      (run (env_stdout fmt_event 0) sdi_abc (State.initial Nat) [.header]).state
      .frame_begin).effects =
      [.call_event .SR_DF_FRAME_BEGIN, .fwrite .null [84], .fflush .null] := by
  decide

/-- C20. The claim fails on the code.  Limit 10 and a device with no probe
enabled: MetaLogic computes UnitSize 0, the transcoder returns an empty buffer
for a packet of 15 one-byte samples, the truncation test fires and the data
hook is handed that empty buffer with length 10.  Limit `2 ^ 63` and two-byte
samples: `limit_samples * sample_size` wraps to 0, so with one sample received
the subtraction underflows and the one-byte buffer of the next packet is handed
on with length `2 ^ 64 - 1`. -/
theorem truncated_length_exceeds_buffer :
    (run (env_stdout fmt_data 10) sdi_none (State.initial Nat)
      [.header, .meta_logic ⟨3, 1000⟩]).state.unitsize = 0 ∧
    (env_stdout fmt_data 10).sr_filter_probes 1 0 [-1] (List.replicate 15 5) 15 =
      some ([], 0) ∧
    (datafeed_in (env_stdout fmt_data 10) sdi_none
      (run (env_stdout fmt_data 10) sdi_none (State.initial Nat)
        [.header, .meta_logic ⟨3, 1000⟩]).state (logic_bytes 15)).effects =
      [.call_data [] 10, .fwrite .stdout [], .fflush .stdout] ∧
    (run (env_stdout fmt_data (2 ^ 63)) sdi_abc (State.initial Nat)
      [.header, .meta_logic ⟨3, 1000⟩, .logic ⟨2, 2, [5, 0]⟩]).state.received_samples = 1 ∧
    (env_stdout fmt_data (2 ^ 63)).sr_filter_probes 2 1 [0, 2, -1] [5, 0] 2 = some ([3], 1) ∧
    ((datafeed_in (env_stdout fmt_data (2 ^ 63)) sdi_abc
      (run (env_stdout fmt_data (2 ^ 63)) sdi_abc (State.initial Nat)
        [.header, .meta_logic ⟨3, 1000⟩, .logic ⟨2, 2, [5, 0]⟩]).state
      (.logic ⟨2, 2, [5, 0]⟩)).effects.filterMap Effect.sample_len) = [2 ^ 64 - 1] := by
  decide

/-! ## Decoder registration and stacking -/

/-- C15. The claim fails on the code.  In the decoder string "spi,uart," the third
directive is empty and the directive parser rejects it; `register_pds` stops
there but returns 0, and the instances created for "spi" and "uart" are still
registered and still in the visibility table.  `register_pds` having returned
0, the setup of `main` goes on: with the stack string "spi,uart",
`setup_pd_stack` stacks the two instances and returns 0 too. -/
theorem register_pds_invalid_directive_returns_zero :
    g_strsplit "spi,uart," ',' = ["spi", "uart", ""] ∧
    pd_env_spec.parse_generic_arg "" = none ∧
    (register_pds pd_env_spec ⟨none, []⟩ "spi,uart,").1 = 0 ∧
    (register_pds pd_env_spec ⟨none, []⟩ "spi,uart,").2.instances =
      [⟨"spi", "spi"⟩, ⟨"uart", "uart"⟩] ∧
    ((register_pds pd_env_spec ⟨none, []⟩ "spi,uart,").2.pd_ann_visible.map
      (fun table => table.entries)) = some [("spi", 0), ("uart", 0)] ∧
    (setup_decoders "spi,uart," (some "spi,uart")).1 = 0 ∧
    (setup_decoders "spi,uart," (some "spi,uart")).2.stacked =
      [(⟨"spi", "spi"⟩, ⟨"uart", "uart"⟩)] := by
  decide

/-- The stacking loop fails as soon as one of its entries names an instance that
cannot be found when the loop starts and that no stacking makes findable. -/
theorem setup_pd_stack_loop_missing {L : Type} (env : StackEnv L) (id : Option String)
    (hkeep : ∀ lib a b lib1, env.srd_inst_find_by_id lib id = none →
      env.srd_inst_stack lib a b = some lib1 → env.srd_inst_find_by_id lib1 id = none) :
    ∀ (rest : List String) (di_from : srd_decoder_inst) (st : StackState L),
      (∃ pd ∈ rest, (g_strsplit pd ':').head? = id) →
      env.srd_inst_find_by_id st.lib id = none →
      (setup_pd_stack_loop env rest di_from st).1 = 1 := by
  intro rest
  induction rest with
  | nil => intro _ _ h; simp at h
  | cons pd rest ih =>
    intro di_from st hex hnone
    unfold setup_pd_stack_loop
    cases hf : env.srd_inst_find_by_id st.lib (g_strsplit pd ':').head? with
    | none => rfl
    | some di_to =>
      dsimp only
      cases hs : env.srd_inst_stack st.lib di_from di_to with
      | none => rfl
      | some lib1 =>
        dsimp only
        apply ih
        · obtain ⟨pd1, hmem, hid⟩ := hex
          rcases List.mem_cons.1 hmem with rfl | hmem
          · rw [hid, hnone] at hf
            cases hf
          · exact ⟨pd1, hmem, hid⟩
        · exact hkeep st.lib di_from di_to lib1 hnone hs

/-- C14 (amended). An explicit stack string is given.  With more than one decoder
directive, `setup_pd_stack` returns 1 when the stack string has fewer than two
entries, and returns 1 when one of its entries names an instance that does not
exist (its id is not found when the stacking starts, and stacking does not
make it findable).  With at most one decoder directive the stack string is not
looked at: `setup_pd_stack` returns 0 and changes nothing. -/
theorem explicit_stack_checked_only_with_several_directives {L : Type} (env : StackEnv L)
    (st : StackState L) (stack : String) (hs : env.opt_pd_stack = some stack) :
    ((g_strsplit env.opt_pds ',').length ≤ 1 → setup_pd_stack env st = (0, st)) ∧
    (1 < (g_strsplit env.opt_pds ',').length → (g_strsplit stack ',').length < 2 →
      setup_pd_stack env st = (1, st)) ∧
    (1 < (g_strsplit env.opt_pds ',').length →
      ∀ pd ∈ g_strsplit stack ',',
        env.srd_inst_find_by_id st.lib (g_strsplit pd ':').head? = none →
        (∀ lib a b lib1, env.srd_inst_find_by_id lib (g_strsplit pd ':').head? = none →
          env.srd_inst_stack lib a b = some lib1 →
          env.srd_inst_find_by_id lib1 (g_strsplit pd ':').head? = none) →
        (setup_pd_stack env st).1 = 1) := by
  refine ⟨?_, ?_, ?_⟩
  · intro h
    unfold setup_pd_stack
    rw [if_neg (by omega)]
  · intro h1 h2
    unfold setup_pd_stack
    rw [if_pos (by omega)]
    simp [stack_entries, hs, h2]
  · intro h1 pd hmem hnone hkeep
    unfold setup_pd_stack
    rw [if_pos (by omega)]
    by_cases h2 : (g_strsplit stack ',').length < 2
    · simp [stack_entries, hs, h2]
    · simp only [stack_entries, hs, h2, if_false]
      cases hl : g_strsplit stack ',' with
      | nil => rw [hl] at hmem; simp at hmem
      | cons pd0 rest =>
        rw [hl] at hmem
        dsimp only
        cases hf : env.srd_inst_find_by_id st.lib (g_strsplit pd0 ':').head? with
        | none => rfl
        | some di_from =>
          dsimp only
          rcases List.mem_cons.1 hmem with rfl | hmem
          · rw [hnone] at hf
            cases hf
          · exact setup_pd_stack_loop_missing env _ hkeep rest di_from st ⟨pd, hmem, rfl⟩ hnone

/-- In the library of `stack_env`, stacking never makes an id findable that was
not. -/
theorem stack_env_keeps_missing (opt_pds : String) (opt_pd_stack : Option String)
    (id : Option String) (lib : List srd_decoder_inst) (a b : srd_decoder_inst)
    (lib1 : List srd_decoder_inst)
    (hnone : (stack_env opt_pds opt_pd_stack).srd_inst_find_by_id lib id = none)
    (hs : (stack_env opt_pds opt_pd_stack).srd_inst_stack lib a b = some lib1) :
    (stack_env opt_pds opt_pd_stack).srd_inst_find_by_id lib1 id = none := by
  simp only [stack_env, Option.some.injEq] at hs hnone ⊢
  subst hs
  cases id with
  | none => rfl
  | some id =>
    simp only [List.find?_eq_none] at hnone ⊢
    intro x hx
    exact hnone x (List.mem_of_mem_erase hx)

/-- Witness of C14 (amended): two directives and the stack string "i2c,nosuch". -/
theorem explicit_stack_checked_only_with_several_directives_witness :
    (setup_pd_stack (stack_env "spi,i2c" (some "i2c,nosuch"))
      ⟨none, [⟨"spi", "spi"⟩, ⟨"i2c", "i2c"⟩], []⟩).1 = 1 :=
  (explicit_stack_checked_only_with_several_directives (stack_env "spi,i2c" (some "i2c,nosuch"))
    ⟨none, [⟨"spi", "spi"⟩, ⟨"i2c", "i2c"⟩], []⟩ "i2c,nosuch" rfl).2.2 (by decide) "nosuch"
    (by decide) (by decide)
    (fun lib a b lib1 => stack_env_keeps_missing "spi,i2c" (some "i2c,nosuch") _ lib a b lib1)

/-- C14 as stated fails: with the single directive "spi", the stack string
"nosuch", one entry naming no instance, is accepted: the decoder setup returns
0 and stacks nothing. -/
theorem explicit_stack_ignored_with_one_directive :
    (setup_decoders "spi" (some "nosuch")).1 = 0 ∧
    (setup_decoders "spi" (some "nosuch")).2.stacked = [] ∧
    (setup_decoders "spi" (some "nosuch")).2.lib = [⟨"spi", "spi"⟩] := by
  decide

/-- When every directive registers its instance and there is no annotation list,
the registration loop returns 0 with all instances created and each of them
inserted in the visibility table. -/
theorem register_pds_loop_all (env : PdEnv) (ha : env.opt_pd_annotations = none)
    (toks : List String) (insts : List srd_decoder_inst)
    (hreg : List.Forall₂ (registers env) toks insts) :
    ∀ st : PdState, register_pds_loop env toks st =
      (0, ⟨st.pd_ann_visible.map
            (fun t => insts.foldl (fun t di => g_hash_table_insert t di.inst_id 0) t),
          st.instances ++ insts⟩) := by
  induction hreg with
  | nil =>
    intro st
    cases st with
    | mk vis instances =>
      cases vis <;> simp [register_pds_loop]
  | cons h _ ih =>
    intro st
    obtain ⟨opts, h1, h2, h3, h4⟩ := h
    unfold register_pds_loop
    simp only [h1, h2, h3, h4, ha, Bool.not_true, Bool.false_eq_true, if_false,
      Option.isNone_none, if_true]
    rw [ih]
    cases st with
    | mk vis instances =>
      cases vis <;> simp

/-- Inserting a key that matches no entry appends it. -/
theorem g_hash_table_insert_fresh (t : GHashTable) (key : String) (value : Int)
    (hk : ∀ a b, t.key_equal a b = decide (a = b)) (hfresh : ∀ e ∈ t.entries, e.1 ≠ key) :
    g_hash_table_insert t key value = { t with entries := t.entries ++ [(key, value)] } := by
  unfold g_hash_table_insert
  have hany : t.entries.any (fun e => t.key_equal e.1 key) = false := by
    rw [List.any_eq_false]
    intro e he
    simpa [hk] using hfresh e he
  simp [hany]

/-- Inserting pairwise different, new keys one after the other appends them in
that order. -/
theorem g_hash_table_insert_all (insts : List srd_decoder_inst) :
    ∀ t : GHashTable, (∀ a b, t.key_equal a b = decide (a = b)) →
      (insts.map (fun di => di.inst_id)).Nodup →
      (∀ e ∈ t.entries, e.1 ∉ insts.map (fun di => di.inst_id)) →
      insts.foldl (fun t di => g_hash_table_insert t di.inst_id 0) t =
        { t with entries := t.entries ++ insts.map (fun di => (di.inst_id, (0 : Int))) } := by
  induction insts with
  | nil => intro t _ _ _; simp
  | cons di rest ih =>
    intro t hk hnd hfresh
    rw [List.map_cons, List.nodup_cons] at hnd
    rw [List.foldl_cons, g_hash_table_insert_fresh t di.inst_id 0 hk
      (fun e he h => hfresh e he (by rw [h]; exact List.mem_cons_self _ _))]
    rw [ih { t with entries := t.entries ++ [(di.inst_id, 0)] } hk hnd.2]
    · simp
    · intro e he
      simp only [List.mem_append, List.mem_singleton] at he
      rcases he with he | rfl
      · intro hmem
        exact hfresh e he (List.mem_cons_of_mem _ hmem)
      · exact hnd.1

/-- The stacking loop over entries that each name the next instance of a list of
pairwise different instances, all findable when the loop starts, in a library
whose stacking succeeds and leaves every other instance findable: it returns
0, stacks each instance on the one before it, and takes all but the last out of
the visibility table. -/
theorem setup_pd_stack_loop_chain {L : Type} (env : StackEnv L)
    (ha : env.opt_pd_annotations = none)
    (hstack : ∀ lib a b, ∃ lib1, env.srd_inst_stack lib a b = some lib1 ∧
      ∀ id c, c ≠ b → env.srd_inst_find_by_id lib id = some c →
        env.srd_inst_find_by_id lib1 id = some c)
    (toks : List String) (insts : List srd_decoder_inst)
    (hname : List.Forall₂ (fun tok di => (g_strsplit tok ':').head? = some di.inst_id)
      toks insts) :
    ∀ (di_from : srd_decoder_inst) (st : StackState L), insts.Nodup →
      (∀ di ∈ insts, env.srd_inst_find_by_id st.lib (some di.inst_id) = some di) →
      (setup_pd_stack_loop env toks di_from st).1 = 0 ∧
      (setup_pd_stack_loop env toks di_from st).2.pd_ann_visible =
        st.pd_ann_visible.map (fun t =>
          (di_from :: insts).dropLast.foldl (fun t di => g_hash_table_remove t di.inst_id) t) ∧
      (setup_pd_stack_loop env toks di_from st).2.stacked =
        st.stacked ++ (di_from :: insts).zip insts := by
  induction hname with
  | nil =>
    intro di_from st _ _
    cases h : st.pd_ann_visible <;> simp [setup_pd_stack_loop, h]
  | @cons tok di toks insts h _ ih =>
    intro di_from st hnd hfind
    rw [List.nodup_cons] at hnd
    obtain ⟨lib1, hs, hkeep⟩ := hstack st.lib di_from di
    have hf : env.srd_inst_find_by_id st.lib (g_strsplit tok ':').head? = some di := by
      rw [h]
      exact hfind di (List.mem_cons_self _ _)
    unfold setup_pd_stack_loop
    simp only [hf, hs, ha, Option.isNone_none, if_true]
    obtain ⟨i1, i2, i3⟩ := ih di
      { pd_ann_visible := st.pd_ann_visible.map (fun t => g_hash_table_remove t di_from.inst_id),
        lib := lib1, stacked := st.stacked ++ [(di_from, di)] } hnd.2
      (by
        intro d hd
        apply hkeep _ d _ (hfind d (List.mem_cons_of_mem _ hd))
        intro hdd
        rw [hdd] at hd
        exact hnd.1 hd)
    refine ⟨i1, ?_, ?_⟩
    · rw [i2]
      cases st.pd_ann_visible <;> simp [List.dropLast_cons₂]
    · rw [i3]
      simp

/-- Removing the keys of a list of instances leaves the entries under other
keys. -/
theorem g_hash_table_remove_all (insts : List srd_decoder_inst) :
    ∀ t : GHashTable, (∀ a b, t.key_equal a b = decide (a = b)) →
      (insts.foldl (fun t di => g_hash_table_remove t di.inst_id) t).entries =
        t.entries.filter (fun e => decide (e.1 ∉ insts.map (fun di => di.inst_id))) := by
  induction insts with
  | nil => intro t _; simp
  | cons di rest ih =>
    intro t hk
    rw [List.foldl_cons, ih (g_hash_table_remove t di.inst_id) hk]
    simp only [g_hash_table_remove, List.filter_filter]
    apply List.filter_congr
    intro e _
    by_cases h1 : e.1 = di.inst_id <;> by_cases h2 : e.1 ∈ rest.map (fun di => di.inst_id) <;>
      simp [hk, h1, h2]

/-- Of the entries made for a list of instances with pairwise different ids, the
one of the last instance is the only one whose key is not an id of an earlier
instance. -/
theorem visible_only_last (insts : List srd_decoder_inst)
    (hnd : (insts.map (fun di => di.inst_id)).Nodup) (last : srd_decoder_inst)
    (hlast : insts.getLast? = some last) :
    (insts.map (fun di => (di.inst_id, (0 : Int)))).filter
        (fun e => decide (e.1 ∉ insts.dropLast.map (fun di => di.inst_id))) =
      [(last.inst_id, 0)] := by
  obtain ⟨dl, rfl⟩ : ∃ dl, insts = dl ++ [last] := by
    rw [List.getLast?_eq_some_iff] at hlast
    exact hlast
  rw [List.dropLast_concat, List.map_append, List.filter_append]
  rw [List.map_append, List.nodup_append] at hnd
  have h1 : (dl.map (fun di => (di.inst_id, (0 : Int)))).filter
      (fun e => decide (e.1 ∉ dl.map (fun di => di.inst_id))) = [] := by
    rw [List.filter_eq_nil_iff]
    intro e he
    simp only [List.mem_map] at he
    obtain ⟨d, hd, rfl⟩ := he
    simp only [decide_eq_true_eq, not_not]
    exact List.mem_map_of_mem _ hd
  have h2 : last.inst_id ∉ dl.map (fun di => di.inst_id) := by
    intro hmem
    exact hnd.2.2 hmem (by simp)
  have h3 : ∀ x ∈ dl, ¬ x.inst_id = last.inst_id := by
    intro x hx heq
    exact h2 (by rw [← heq]; exact List.mem_map_of_mem _ hx)
  rw [h1]
  simpa using h3

/-- Where the ids tell the instances apart the default chain is as the comments
of lines 854-857 and 926-929 have it.  More than one directive, no explicit
stack string, no annotation list.  Every directive registers its instance; the instances have
pairwise different ids, each the decoder name its directive starts with; the
table compares ids as strings; the decoder library finds each instance by its
id when the stacking starts, and its stacking succeeds and leaves every other
instance findable.  Then `register_pds` returns 0 having created the
instances in declaration order, `setup_pd_stack` returns 0, the stack edges
are exactly instance i to instance i+1 for each adjacent pair, in order, and
the visibility table holds the last instance and nothing else. -/
theorem default_chain_in_declaration_order {L : Type} (env : PdEnv) (senv : StackEnv L)
    (pdstring : String) (st0 : PdState) (lib0 : L) (insts : List srd_decoder_inst)
    (ha : env.opt_pd_annotations = none) (hsa : senv.opt_pd_annotations = none)
    (hss : senv.opt_pd_stack = none) (hp : senv.opt_pds = pdstring)
    (hkeq : ∀ a b, env.key_equal a b = decide (a = b))
    (hlen : 1 < (g_strsplit pdstring ',').length)
    (hreg : List.Forall₂ (registers env) (g_strsplit pdstring ',') insts)
    (hname : List.Forall₂ (fun tok di => (g_strsplit tok ':').head? = some di.inst_id)
      (g_strsplit pdstring ',') insts)
    (hnd : (insts.map (fun di => di.inst_id)).Nodup)
    (hfind : ∀ di ∈ insts, senv.srd_inst_find_by_id lib0 (some di.inst_id) = some di)
    (hstack : ∀ lib a b, ∃ lib1, senv.srd_inst_stack lib a b = some lib1 ∧
      ∀ id c, c ≠ b → senv.srd_inst_find_by_id lib id = some c →
        senv.srd_inst_find_by_id lib1 id = some c) :
    (register_pds env st0 pdstring).1 = 0 ∧
    (register_pds env st0 pdstring).2.instances = st0.instances ++ insts ∧
    (setup_pd_stack senv
      ⟨(register_pds env st0 pdstring).2.pd_ann_visible, lib0, []⟩).1 = 0 ∧
    (setup_pd_stack senv
      ⟨(register_pds env st0 pdstring).2.pd_ann_visible, lib0, []⟩).2.stacked =
      insts.zip insts.tail ∧
    ((setup_pd_stack senv
      ⟨(register_pds env st0 pdstring).2.pd_ann_visible, lib0, []⟩).2.pd_ann_visible.map
        (fun t => t.entries)) =
      insts.getLast?.map (fun di => [(di.inst_id, (0 : Int))]) := by
  have hregd : register_pds env st0 pdstring =
      (0, ⟨some { key_equal := env.key_equal,
                  entries := insts.map (fun di => (di.inst_id, (0 : Int))) },
          st0.instances ++ insts⟩) := by
    unfold register_pds
    rw [register_pds_loop_all env ha _ insts hreg]
    simp only [Option.map_some']
    rw [g_hash_table_insert_all insts _ hkeq hnd (by simp)]
    simp
  rw [hregd]
  refine ⟨rfl, rfl, ?_⟩
  unfold setup_pd_stack
  rw [hp, if_pos (by omega)]
  simp only [stack_entries, hss, hp]
  generalize g_strsplit pdstring ',' = toks at hlen hname ⊢
  cases hname with
  | nil => simp at hlen
  | @cons t0 d0 trest rest h0 hrest =>
    have hf0 : senv.srd_inst_find_by_id lib0 (g_strsplit t0 ':').head? = some d0 := by
      rw [h0]
      exact hfind d0 (List.mem_cons_self _ _)
    simp only [hf0]
    have hnodup : (d0 :: rest).Nodup := List.Nodup.of_map _ hnd
    obtain ⟨c1, c2, c3⟩ := setup_pd_stack_loop_chain senv hsa hstack trest rest hrest d0
      ⟨some { key_equal := env.key_equal,
              entries := (d0 :: rest).map (fun di => (di.inst_id, (0 : Int))) }, lib0, []⟩
      (List.nodup_cons.1 hnodup).2
      (fun di hdi => hfind di (List.mem_cons_of_mem _ hdi))
    refine ⟨c1, ?_, ?_⟩
    · rw [c3]
      simp
    · rw [c2]
      simp only [Option.map_some']
      rw [g_hash_table_remove_all _ _ hkeq]
      cases hl : (d0 :: rest).getLast? with
      | none => simp at hl
      | some last =>
        have hv := visible_only_last (d0 :: rest) hnd last hl
        simp only [Option.map_some', Option.some.injEq]
        rw [← hv]

/-- In the library of `stack_env` stacking succeeds and leaves every instance
other than the stacked one findable. -/
theorem stack_env_stack_keeps (opt_pds : String) (opt_pd_stack : Option String)
    (lib : List srd_decoder_inst) (a b : srd_decoder_inst) :
    ∃ lib1, (stack_env opt_pds opt_pd_stack).srd_inst_stack lib a b = some lib1 ∧
      ∀ id c, c ≠ b → (stack_env opt_pds opt_pd_stack).srd_inst_find_by_id lib id = some c →
        (stack_env opt_pds opt_pd_stack).srd_inst_find_by_id lib1 id = some c := by
  refine ⟨lib.erase b, rfl, ?_⟩
  intro id c hcb hfind
  cases id with
  | none => simp [stack_env] at hfind
  | some id =>
    simp only [stack_env] at hfind ⊢
    induction lib with
    | nil => simp at hfind
    | cons x xs ih =>
      by_cases hp : x.inst_id = id
      · have hx : c = x := by
          simpa [List.find?, hp] using hfind.symm
        subst hx
        rw [List.erase_cons_tail (by simpa using hcb)]
        simp [List.find?, hp]
      · have hxs : List.find? (fun di => decide (di.inst_id = id)) xs = some c := by
          simpa [List.find?, hp] using hfind
        by_cases hxb : x = b
        · subst hxb
          simpa using hxs
        · rw [List.erase_cons_tail (by simpa using hxb)]
          simpa [List.find?, hp] using ih hxs

/-- The default chain for the decoder string "uart,midi". -/
theorem default_chain_in_declaration_order_witness :
    (setup_pd_stack (stack_env "uart,midi" none)
      ⟨(register_pds pd_env_spec ⟨none, []⟩ "uart,midi").2.pd_ann_visible,
        [⟨"uart", "uart"⟩, ⟨"midi", "midi"⟩], []⟩).2.stacked =
      [(⟨"uart", "uart"⟩, ⟨"midi", "midi"⟩)] ∧
    ((setup_pd_stack (stack_env "uart,midi" none)
      ⟨(register_pds pd_env_spec ⟨none, []⟩ "uart,midi").2.pd_ann_visible,
        [⟨"uart", "uart"⟩, ⟨"midi", "midi"⟩], []⟩).2.pd_ann_visible.map
        (fun t => t.entries)) = some [("midi", 0)] :=
  (default_chain_in_declaration_order pd_env_spec (stack_env "uart,midi" none) "uart,midi"
    ⟨none, []⟩ [⟨"uart", "uart"⟩, ⟨"midi", "midi"⟩] [⟨"uart", "uart"⟩, ⟨"midi", "midi"⟩]
    rfl rfl rfl rfl (fun _ _ => rfl) (by decide)
    (by
      rw [show g_strsplit "uart,midi" ',' = ["uart", "midi"] from by decide]
      exact List.Forall₂.cons
        ⟨[("sigrok_key", "uart")], by decide, by decide, by decide, by decide⟩
        (List.Forall₂.cons
          ⟨[("sigrok_key", "midi")], by decide, by decide, by decide, by decide⟩
          List.Forall₂.nil))
    (by
      rw [show g_strsplit "uart,midi" ',' = ["uart", "midi"] from by decide]
      exact List.Forall₂.cons (by decide) (List.Forall₂.cons (by decide) List.Forall₂.nil))
    (by decide) (by decide)
    (stack_env_stack_keeps "uart,midi" none)).2.2.2

/-- C13. The code does not leave the last instance of the chain in the
visibility table for every directive list: `setup_pd_stack` finds the
instances by the first piece of each directive, not by the instances
`register_pds` created.  The decoder string of the comment above
`register_pds`, "spi:sck=3:sdata=4,spi:sck=3:sdata=5", has two directives, and
two instances are created, both with the id "spi".  With no stack string and no
annotation list the setup returns 0, but the one edge made is between the
instance found under "spi" and the instance found under "spi" again, and the
visibility table is left empty, against the comment of lines 926-929.  This is
so when the table compares ids as strings and when it compares them as GLib
does with `g_str_hash` and `g_int_equal`. -/
theorem default_chain_with_equal_ids :
    (register_pds pd_env_spec ⟨none, []⟩ "spi:sck=3:sdata=4,spi:sck=3:sdata=5").1 = 0 ∧
    (register_pds pd_env_spec ⟨none, []⟩
      "spi:sck=3:sdata=4,spi:sck=3:sdata=5").2.instances =
      [⟨"spi", "spi"⟩, ⟨"spi", "spi"⟩] ∧
    (setup_decoders "spi:sck=3:sdata=4,spi:sck=3:sdata=5" none).1 = 0 ∧
    (setup_decoders "spi:sck=3:sdata=4,spi:sck=3:sdata=5" none).2.stacked =
      [(⟨"spi", "spi"⟩, ⟨"spi", "spi"⟩)] ∧
    ((setup_decoders "spi:sck=3:sdata=4,spi:sck=3:sdata=5" none).2.pd_ann_visible.map
      (fun t => t.entries)) = some [] ∧
    (register_pds pd_env_glib ⟨none, []⟩ "spi:sck=3:sdata=4,spi:sck=3:sdata=5").1 = 0 ∧
    (register_pds pd_env_glib ⟨none, []⟩
      "spi:sck=3:sdata=4,spi:sck=3:sdata=5").2.instances =
      [⟨"spi", "spi"⟩, ⟨"spi", "spi"⟩] ∧
    ((register_pds pd_env_glib ⟨none, []⟩
      "spi:sck=3:sdata=4,spi:sck=3:sdata=5").2.pd_ann_visible.map (fun t => t.entries)) =
      some [("spi", 0)] ∧
    (setup_pd_stack (stack_env "spi:sck=3:sdata=4,spi:sck=3:sdata=5" none)
      ⟨(register_pds pd_env_glib ⟨none, []⟩
          "spi:sck=3:sdata=4,spi:sck=3:sdata=5").2.pd_ann_visible,
        [⟨"spi", "spi"⟩, ⟨"spi", "spi"⟩], []⟩).1 = 0 ∧
    (setup_pd_stack (stack_env "spi:sck=3:sdata=4,spi:sck=3:sdata=5" none)
      ⟨(register_pds pd_env_glib ⟨none, []⟩
          "spi:sck=3:sdata=4,spi:sck=3:sdata=5").2.pd_ann_visible,
        [⟨"spi", "spi"⟩, ⟨"spi", "spi"⟩], []⟩).2.stacked =
      [(⟨"spi", "spi"⟩, ⟨"spi", "spi"⟩)] ∧
    ((setup_pd_stack (stack_env "spi:sck=3:sdata=4,spi:sck=3:sdata=5" none)
      ⟨(register_pds pd_env_glib ⟨none, []⟩
          "spi:sck=3:sdata=4,spi:sck=3:sdata=5").2.pd_ann_visible,
        [⟨"spi", "spi"⟩, ⟨"spi", "spi"⟩], []⟩).2.pd_ann_visible.map
      (fun t => t.entries)) = some [] := by
  decide

/-! ## Division by the declared source sample size -/

/-- A logic packet of non-zero length that declares source sample size 0, passes
the gates of lines 666-674 and is transcoded: the logic case runs into a
division by zero, at line 687 before anything is handed on when a sample limit
is set, at line 717 after the buffer was handed on when none is and the routing
did not end at the `g_free` of line 711. -/
theorem datafeed_in_logic_zero_size {σ : Type} (env : Env σ) (s : State σ) (m : σ)
    (logic : sr_datafeed_logic) (filter_out : List Nat) (filter_out_len : Nat)
    (hlen : logic.length ≠ 0)
    (htrig : env.opt_wait_trigger = false ∨ s.triggered = true)
    (hlim : env.limit_samples = 0 ∨ s.received_samples < env.limit_samples)
    (hf : env.sr_filter_probes logic.unitsize s.unitsize s.logic_probelist logic.data
      logic.length = some (filter_out, filter_out_len))
    (hss : logic.unitsize = 0)
    (hroute : env.limit_samples ≠ 0 ∨ route_logic_faults env = false) :
    (datafeed_in_logic env s m logic).status = .fault .div_by_zero ∧
    (datafeed_in_logic env s m logic).state.received_samples = s.received_samples ∧
    (env.limit_samples ≠ 0 → (datafeed_in_logic env s m logic).effects = []) := by
  have h2 : (env.opt_wait_trigger && !s.triggered) = false := by
    rcases htrig with h | h <;> simp [h]
  have h3 : ¬ (env.limit_samples ≠ 0 ∧ s.received_samples ≥ env.limit_samples) := by
    rcases hlim with h | h
    · simp [h]
    · intro hc
      exact absurd hc.2 (by omega)
  unfold datafeed_in_logic
  rw [hss] at hf
  simp only [hlen, h2, h3, hss, hf, if_false, Bool.false_eq_true]
  by_cases hN : env.limit_samples = 0
  · rcases hroute with h | h
    · exact absurd hN h
    · simp [hN, h]
  · simp [hN]

/-- C21. The claim fails on the code: nothing tests the declared source sample
size.  On a device with no probe enabled, after Header and MetaLogic, a logic
packet of four bytes that declares source sample size 0 passes every gate and
is transcoded.  With limit 10 the call divides by zero in the limit test of
line 687, before anything is handed on; with no limit the buffer is handed to
the data hook and the call divides by zero in the `received_samples` update of
line 717.  The counter is not updated in either case. -/
theorem logic_zero_sample_size_divides_by_zero :
    (env_stdout fmt_data 10).sr_filter_probes 0 0 [-1] [5, 5, 5, 5] 4 = some ([], 0) ∧
    (datafeed_in (env_stdout fmt_data 10) sdi_none
      (run (env_stdout fmt_data 10) sdi_none (State.initial Nat)
        [.header, .meta_logic ⟨3, 1000⟩]).state
      (.logic ⟨4, 0, [5, 5, 5, 5]⟩)).status = .fault .div_by_zero ∧
    (datafeed_in (env_stdout fmt_data 10) sdi_none
      (run (env_stdout fmt_data 10) sdi_none (State.initial Nat)
        [.header, .meta_logic ⟨3, 1000⟩]).state
      (.logic ⟨4, 0, [5, 5, 5, 5]⟩)).effects = [] ∧
    (datafeed_in (env_stdout fmt_data 0) sdi_none
      (run (env_stdout fmt_data 0) sdi_none (State.initial Nat)
        [.header, .meta_logic ⟨3, 1000⟩]).state
      (.logic ⟨4, 0, [5, 5, 5, 5]⟩)).status = .fault .div_by_zero ∧
    (datafeed_in (env_stdout fmt_data 0) sdi_none
      (run (env_stdout fmt_data 0) sdi_none (State.initial Nat)
        [.header, .meta_logic ⟨3, 1000⟩]).state
      (.logic ⟨4, 0, [5, 5, 5, 5]⟩)).effects =
      [.call_data [] 0, .fwrite .stdout [], .fflush .stdout] ∧
    (datafeed_in (env_stdout fmt_data 0) sdi_none
      (run (env_stdout fmt_data 0) sdi_none (State.initial Nat)
        [.header, .meta_logic ⟨3, 1000⟩]).state
      (.logic ⟨4, 0, [5, 5, 5, 5]⟩)).state.received_samples = 0 := by
  decide

end SigrokCli
